import Mathlib

/-!
# Price-list ingestion (`main.go`): embedding and verification

The development embeds the row parser / catalog resolver (`searchNomenclatures`),
the catalog point query (`getNomenclature`), the two chunked bulk writers
(`insertNomenclatures`, `insertPrices`), the error sink (`addErr`) and the
two-pass orchestrator (`reedFile`) of `main.go`.

Conventions of the embedding

* Go `int` / `int64` values are `Int`.  The subtraction `StartRow - 1` wraps
  as 64-bit arithmetic does (`wrapInt64`); the other sums and products are
  bounded by slice lengths, and a column position minus one that wraps around
  is out of range as a cell index just as the negative number is.
* `float64` and the two library routines that touch it (`strconv.ParseFloat`
  and the `%f` verb) are a parameter `FloatOps F`; `binary64` is a concrete
  instance (IEEE 754 double precision, round to nearest even).
* The relational store is a state `DB F` (three tables and the list of every
  statement issued, oldest first) together with a fixed `Store F` that says
  which statements the server answers with an error.
* A literal SQL tuple built with `fmt.Sprintf` is kept as the record of the
  `Sprintf` arguments (`NomenclatureTuple`, `PriceTuple`); `text` gives the
  characters.  The text always starts with an opening bracket, so Go's empty
  string (no tuple) is `none`.
* A computation ends in `Outcome.ok` (it returned), `Outcome.fatal`
  (`log.Fatalf` / `log.Fatalln`, the process exits) or `Outcome.panic`
  (run-time panic: index or slice bounds out of range).
-/

namespace PriceLists

/-! ## Data model -/

/-- Operations on Go's `float64` used by the program: the product `*`,
`strconv.ParseFloat(s, 64)` (`none` when it returns an error) and the `%f`
verb of `fmt.Sprintf`. -/
structure FloatOps (F : Type) where
  mul : F → F → F
  ParseFloat : String → Option F
  fmtF : F → String

/-- Go `ColumnsConfig`: 1-based column positions, 0 when the field is absent. -/
structure ColumnsConfig where
  OwnerId : Int
  Code : Int
  ReplaceCode : Int
  Brand : Int
  Description : Int
  Price : Int
  Amount : Int
  Comment : Int
deriving DecidableEq

/-- Go `Upload`, restricted to the fields read by the embedded functions.
`ColumnsConfig` holds the result of `json.Unmarshal` on the raw payload
(`none` when it returns an error). -/
structure Upload (F : Type) where
  ID : Int
  PriceListId : Int
  FileName : String
  Brand : String
  CurrencyValue : F
  Markup : F
  ColumnsConfig : Option ColumnsConfig
  StartRow : Int
  CreatedBy : Int

/-- Go `Nomenclature`: a row of table `nomenclatures`. -/
structure Nomenclature where
  ID : Int
  Code : String
  ReplaceCode : String
  Brand : String
  Description : String
deriving DecidableEq

/-- Arguments of the `Sprintf` call in `addNomenclature`, in order. -/
structure NomenclatureTuple where
  code : String
  replace_code : String
  brand : String
  description : String
  is_auto_added : Int
  created_by : Int
  updated_by : Int
deriving DecidableEq

/-- Arguments of the `Sprintf` call that ends `searchNomenclatures`, in order
(the last argument, the constant `NOW()`, is left out). -/
structure PriceTuple (F : Type) where
  nomenclature_id : Int
  price_list_id : Int
  upload_id : Int
  owner_id : String
  code : String
  replace_code : String
  description : String
  price : F
  price_default : F
  amount : Int
  comment : String
  created_by : Int
deriving DecidableEq

/-- A row of table `price_list_upload_rows`, as written by `addErr`. -/
structure RowError where
  upload_id : Int
  no_row : Int
  text : String
deriving DecidableEq

/-- An `xlsx.Cell` seen through `FormattedValue()`: the string it returns, or
`none` when it returns an error. -/
structure Cell where
  FormattedValue : Option String
deriving DecidableEq

/-- An `xlsx.Row`. -/
structure Row where
  Cells : List Cell
deriving DecidableEq

/-- An `xlsx.Sheet`; a `nil` entry of `sheet.Rows` is `none`. -/
structure Sheet where
  Rows : List (Option Row)
deriving DecidableEq

/-- An `xlsx.File`. -/
structure XlsxFile where
  Sheets : List Sheet
deriving DecidableEq

/-- Go `xlsxMissRow`. -/
structure xlsxMissRow where
  Idx : Int
  Row : Row
deriving DecidableEq

/-- Statements sent to the store through `db.Exec`, `db.Query`, `db.QueryRow`. -/
inductive Stmt (F : Type) where
  | set (name : String) (value : Int)
  | selectNomenclature (code brand : String)
  | insertNomenclatures (rows : List NomenclatureTuple)
  | insertPrices (rows : List (PriceTuple F))
  | insertUploadRow (e : RowError)
deriving DecidableEq

/-- State of the store: the three tables and every statement issued so far. -/
structure DB (F : Type) where
  nomenclatures : List Nomenclature
  prices : List (PriceTuple F)
  price_list_upload_rows : List RowError
  statements : List (Stmt F)
deriving DecidableEq

/-- Behaviour of the server that the program cannot control: `rejects s` when
statement `s` is answered with an error; `queryFails code brand` when the
catalog point query, or the `Scan` of its row, fails with an error other than
`sql.ErrNoRows`; `scannedColumns code brand`, the number of leading columns
that `Scan` had assigned when it failed (0 when the query failed before any
row was read, at most 4 when the conversion of a column failed). -/
structure Store (F : Type) where
  rejects : Stmt F → Bool
  queryFails : String → String → Bool
  scannedColumns : String → String → Nat

/-- How a computation over state `σ` ends. -/
inductive Outcome (σ α : Type) where
  | ok (a : α) (s : σ)
  | fatal (msg : String) (s : σ)
  | panic (s : σ)
deriving DecidableEq

/-! ## Rendering of the literal tuples -/

/-- Text produced by the `Sprintf` call of `addNomenclature`. -/
def NomenclatureTuple.text (t : NomenclatureTuple) : String :=
  "(\"" ++ t.code ++ "\", \"" ++ t.replace_code ++ "\", \"" ++ t.brand ++ "\", \""
    ++ t.description ++ "\", " ++ toString t.is_auto_added ++ ", " ++ toString t.created_by
    ++ ", " ++ toString t.updated_by ++ ", NOW(), NOW())"

/-- Text produced by the `Sprintf` call that ends `searchNomenclatures`. -/
def PriceTuple.text {F : Type} (fl : FloatOps F) (t : PriceTuple F) : String :=
  "(" ++ toString t.nomenclature_id ++ "," ++ toString t.price_list_id ++ ","
    ++ toString t.upload_id ++ ",\"" ++ t.owner_id ++ "\",\"" ++ t.code ++ "\",\""
    ++ t.replace_code ++ "\",\"" ++ t.description ++ "\"," ++ fl.fmtF t.price ++ ","
    ++ fl.fmtF t.price_default ++ "," ++ toString t.amount ++ ",\"" ++ t.comment ++ "\","
    ++ toString t.created_by ++ ",NOW())"

/-! ## Library routines -/

/-- Value of a decimal digit character. -/
def digitVal (c : Char) : Option Nat :=
  if '0' ≤ c ∧ c ≤ '9' then some (c.toNat - '0'.toNat) else none

/-- Value of a non-empty run of decimal digits, read left to right from `acc`. -/
def digitsVal : List Char → Nat → Option Nat
  | [], acc => some acc
  | c :: cs, acc =>
    match digitVal c with
    | none => none
    | some d => digitsVal cs (acc * 10 + d)

/-- Go `strconv.ParseUint(s, 10, 64)` without the range check: `none` on a
syntax error (empty string or a character that is not a decimal digit). -/
def parseUintDigits (s : List Char) : Option Nat :=
  match s with
  | [] => none
  | _ => digitsVal s 0

/-- Go `strconv.ParseInt(s, 10, 64)`; `none` when it returns an error
(syntax error, or value outside the `int64` range). -/
def ParseInt (s : String) : Option Int :=
  match s.data with
  | [] => none
  | c :: cs =>
    let neg := c == '-'
    let body := if c == '+' ∨ c == '-' then cs else c :: cs
    match parseUintDigits body with
    | none => none
    | some un =>
      if ¬ neg ∧ un ≥ 2 ^ 63 then none
      else if neg ∧ un > 2 ^ 63 then none
      else some (if neg then - (un : Int) else (un : Int))

/-- Go `filepath.Ext` on a reversed path: scans from the last character back to
the last path separator for a dot; `acc` holds the characters already passed. -/
def extScan : List Char → List Char → List Char
  | [], _ => []
  | c :: rest, acc =>
    if c == '/' then []
    else if c == '.' then c :: acc
    else extScan rest (c :: acc)

/-- Go `filepath.Ext`: the suffix beginning at the final dot of the final
element of the path, empty when there is none. -/
def Ext (path : String) : String :=
  String.mk (extScan path.data.reverse [])

/-! ## A concrete `float64` -/

/-- An IEEE 754 binary64 datum: `finite neg m e` is `(-1)^neg * m * 2^e` with
`m < 2^53` and `-1074 ≤ e ≤ 971`. -/
inductive Float64 where
  | finite (neg : Bool) (m : Nat) (e : Int)
  | inf (neg : Bool)
  | nan
deriving DecidableEq

/-- Number of binary digits of `n`, computed with `fuel ≥` that number. -/
def bitLen : Nat → Nat → Nat
  | 0, _ => 0
  | fuel + 1, n => if n = 0 then 0 else bitLen fuel (n / 2) + 1

/-- Quotient and remainder of `n / (d * 2^e)`, returned with the divisor. -/
def scaledDiv (n d : Nat) (e : Int) : Nat × Nat × Nat :=
  let num := if e < 0 then n * 2 ^ (-e).toNat else n
  let den := if e < 0 then d else d * 2 ^ e.toNat
  (num / den, num % den, den)

/-- The binary64 value nearest to `n / d` (`d > 0`), ties to even; overflow
gives an infinity. -/
def roundNE (neg : Bool) (n d : Nat) : Float64 :=
  if n = 0 then .finite neg 0 (-1074)
  else
    let e0 : Int := (bitLen (n + 1) n : Int) - (bitLen (d + 1) d : Int) - 52
    let e1 : Int := if (scaledDiv n d e0).1 < 2 ^ 52 then e0 - 1 else e0
    let e : Int := if e1 < -1074 then -1074 else e1
    let (q, r, den) := scaledDiv n d e
    let q1 := if 2 * r > den ∨ (2 * r = den ∧ q % 2 = 1) then q + 1 else q
    let m := if q1 = 2 ^ 53 then 2 ^ 52 else q1
    let e2 := if q1 = 2 ^ 53 then e + 1 else e
    if e2 > 971 then .inf neg else .finite neg m e2

/-- The IEEE 754 product, rounded to nearest even. -/
def Float64.mul : Float64 → Float64 → Float64
  | .nan, _ => .nan
  | _, .nan => .nan
  | .inf a, .inf b => .inf (a != b)
  | .inf a, .finite b m _ => if m = 0 then .nan else .inf (a != b)
  | .finite a m _, .inf b => if m = 0 then .nan else .inf (a != b)
  | .finite a m e, .finite b k f =>
    let s := e + f
    if s < 0 then roundNE (a != b) (m * k) (2 ^ (-s).toNat)
    else roundNE (a != b) (m * k * 2 ^ s.toNat) 1

/-- Left-pads a digit string with zeros to width `w`. -/
def padZeros (w : Nat) (s : String) : String :=
  String.mk (List.replicate (w - s.length) '0') ++ s

/-- The `%f` verb: six digits after the point, correctly rounded, ties to even. -/
def Float64.fmtF : Float64 → String
  | .nan => "NaN"
  | .inf neg => if neg then "-Inf" else "+Inf"
  | .finite neg m e =>
    let (q, r, den) := scaledDiv (m * 10 ^ 6) 1 (-e)
    let q1 := if 2 * r > den ∨ (2 * r = den ∧ q % 2 = 1) then q + 1 else q
    (if neg then "-" else "") ++ toString (q1 / 10 ^ 6) ++ "." ++ padZeros 6 (toString (q1 % 10 ^ 6))

/-- Value of a hexadecimal digit character, in either letter case. -/
def hexDigitVal (c : Char) : Option Nat :=
  if '0' ≤ c ∧ c ≤ '9' then some (c.toNat - '0'.toNat)
  else if 'a' ≤ c.toLower ∧ c.toLower ≤ 'f' then some (c.toLower.toNat - 'a'.toNat + 10)
  else none

/-- What the digit loop of `readFloat` has read: the digits as one integer in
the base, the number of digits after the point, whether a digit and whether an
underscore was seen, and the characters left. -/
structure Mantissa where
  value : Nat
  fraction : Nat
  sawdigits : Bool
  underscores : Bool
  rest : List Char

/-- The digit loop of `readFloat`: underscores are skipped, one point is
accepted, digits of the base are accumulated; it stops at any other
character. -/
def readMantissa (hex : Bool) : List Char → Bool → Mantissa → Mantissa
  | [], _, m => { m with rest := [] }
  | c :: cs, sawdot, m =>
    if c == '_' then readMantissa hex cs sawdot { m with underscores := true }
    else if c == '.' then
      if sawdot then { m with rest := c :: cs } else readMantissa hex cs true m
    else
      match (if hex then hexDigitVal c else digitVal c) with
      | some d =>
        readMantissa hex cs sawdot
          { m with value := m.value * (if hex then 16 else 10) + d,
                   fraction := m.fraction + (if sawdot then 1 else 0),
                   sawdigits := true }
      | none => { m with rest := c :: cs }

/-- The exponent digits of `readFloat`: digits and underscores; the value stops
growing once it has reached 10000. -/
def readExpDigits : List Char → Nat → Bool → Nat × Bool × List Char
  | [], e, u => (e, u, [])
  | c :: cs, e, u =>
    if c == '_' then readExpDigits cs e true
    else
      match digitVal c with
      | some d => readExpDigits cs (if e < 10000 then e * 10 + d else e) u
      | none => (e, u, c :: cs)

/-- The optional exponent of `readFloat` (`e` for decimal, `p` and mandatory
for hexadecimal input): the signed exponent, whether an underscore was seen,
and the characters left; `none` on a syntax error. -/
def readExponent (hex : Bool) : List Char → Option (Int × Bool × List Char)
  | [] => if hex then none else some (0, false, [])
  | c :: cs =>
    if c.toLower == (if hex then 'p' else 'e') then
      match cs with
      | [] => none
      | d :: ds =>
        let body := if d == '+' ∨ d == '-' then ds else d :: ds
        match body with
        | [] => none
        | b :: _ =>
          if (digitVal b).isNone then none
          else
            let r := readExpDigits body 0 false
            some (if d == '-' then - (r.1 : Int) else (r.1 : Int), r.2.1, r.2.2)
    else if hex then none
    else some (0, false, c :: cs)

/-- The scan of Go `underscoreOK` over the number proper; `saw` is `'0'` after
a digit or base prefix, `'_'` after an underscore, `'!'` after another
character and `'^'` at the start. -/
def underscoreScan (hex : Bool) : List Char → Char → Bool
  | [], saw => saw != '_'
  | c :: cs, saw =>
    if ('0' ≤ c ∧ c ≤ '9') ∨ (hex ∧ 'a' ≤ c.toLower ∧ c.toLower ≤ 'f') then
      underscoreScan hex cs '0'
    else if c == '_' then
      if saw != '0' then false else underscoreScan hex cs '_'
    else if saw == '_' then false
    else underscoreScan hex cs '!'

/-- Go `underscoreOK`: underscores only between digits, or between a base
prefix and a digit. -/
def underscoreOK (s : List Char) : Bool :=
  let s :=
    match s with
    | c :: cs => if c == '-' ∨ c == '+' then cs else c :: cs
    | [] => []
  match s with
  | '0' :: x :: cs =>
    if x.toLower == 'b' ∨ x.toLower == 'o' ∨ x.toLower == 'x' then
      underscoreScan (x.toLower == 'x') cs '0'
    else underscoreScan false s '^'
  | _ => underscoreScan false s '^'

/-- Go `strconv.ParseFloat(s, 64)`, `none` when it returns an error: the names
of the infinities and of NaN in any letter case; decimal input (optional sign,
digits with at most one point, optional decimal exponent) and hexadecimal input
(`0x` prefix, mandatory binary exponent), with underscores where Go's syntax
allows them.  The value is the nearest `float64`, ties to even; a value out of
range is an error. -/
def Float64.ParseFloat (s : String) : Option Float64 :=
  let lower := s.data.map Char.toLower
  if lower = "nan".data then some .nan
  else if lower = "inf".data ∨ lower = "+inf".data ∨ lower = "infinity".data
      ∨ lower = "+infinity".data then some (.inf false)
  else if lower = "-inf".data ∨ lower = "-infinity".data then some (.inf true)
  else
    match s.data with
    | [] => none
    | c :: cs =>
      let neg := c == '-'
      let body := if c == '+' ∨ c == '-' then cs else c :: cs
      let hex :=
        match body with
        | '0' :: x :: _ :: _ => x.toLower == 'x'
        | _ => false
      let m := readMantissa hex (if hex then body.drop 2 else body) false
        { value := 0, fraction := 0, sawdigits := false, underscores := false, rest := [] }
      if !m.sawdigits then none
      else
        match readExponent hex m.rest with
        | none => none
        | some (e, u, rest) =>
          if !rest.isEmpty then none
          else if (m.underscores || u) && !underscoreOK s.data then none
          else
            let x : Int := if hex then e - 4 * m.fraction else e - m.fraction
            let base : Nat := if hex then 2 else 10
            let v := if x < 0 then roundNE neg m.value (base ^ (-x).toNat)
                     else roundNE neg (m.value * base ^ x.toNat) 1
            match v with
            | .inf _ => none
            | _ => some v

/-- IEEE 754 double precision as an instance of the float operations. -/
def binary64 : FloatOps Float64 where
  mul := Float64.mul
  ParseFloat := Float64.ParseFloat
  fmtF := Float64.fmtF

/-! ## The store -/

section Program

variable {F : Type}

/-- Identifier given to the next row of `nomenclatures` (auto-increment
column): one more than the largest identifier in use. -/
def nextId (rows : List Nomenclature) : Int :=
  (rows.map (fun n => n.ID)).foldl max 0 + 1

/-- Rows of `nomenclatures` created by a bulk insert of `tuples`, the first one
receiving identifier `id`. -/
def storeRows : Int → List NomenclatureTuple → List Nomenclature
  | _, [] => []
  | id, t :: ts =>
    { ID := id, Code := t.code, ReplaceCode := t.replace_code, Brand := t.brand,
      Description := t.description } :: storeRows (id + 1) ts

/-- Effect of an accepted statement on the tables. -/
def DB.apply (db : DB F) : Stmt F → DB F
  | .set _ _ => db
  | .selectNomenclature _ _ => db
  | .insertNomenclatures rows =>
    { db with nomenclatures := db.nomenclatures ++ storeRows (nextId db.nomenclatures) rows }
  | .insertPrices rows => { db with prices := db.prices ++ rows }
  | .insertUploadRow e => { db with price_list_upload_rows := db.price_list_upload_rows ++ [e] }

/-- Sends one statement: it is appended to the statements issued, and applied
unless the server rejects it.  The flag is `err == nil`. -/
def send (env : Store F) (s : Stmt F) (db : DB F) : Bool × DB F :=
  let db1 := { db with statements := db.statements ++ [s] }
  if env.rejects s then (false, db1) else (true, db1.apply s)

/-- Go `db.Exec` with the result ignored. -/
def Exec (env : Store F) (s : Stmt F) (db : DB F) : DB F :=
  (send env s db).2

/-- Errors of `QueryRow(...).Scan(...)` that the program tells apart. -/
inductive SqlError where
  | ErrNoRows
  | other
deriving DecidableEq

/-- The zero value of `Nomenclature`. -/
def Nomenclature.zero : Nomenclature :=
  { ID := 0, Code := "", ReplaceCode := "", Brand := "", Description := "" }

/-- What `Scan(&ID, &Code, &ReplaceCode, &Brand, &Description)` leaves in the
destination when it fails after assigning the first `k` columns of row `n`:
`Scan` converts the columns in order and stops at the first error, the
destinations not reached keep their zero value. -/
def partialScan (k : Nat) (n : Nomenclature) : Nomenclature :=
  { ID := if 1 ≤ k then n.ID else 0
    Code := if 2 ≤ k then n.Code else ""
    ReplaceCode := if 3 ≤ k then n.ReplaceCode else ""
    Brand := if 4 ≤ k then n.Brand else ""
    Description := if 5 ≤ k then n.Description else "" }

/-- The value in the destination of `Scan` when the catalog point query for
(`code`, `brand`) ends with an error other than `sql.ErrNoRows`: the zero
value when no row was read, the leading columns of the row otherwise. -/
def scannedOnError (env : Store F) (code brand : String) (db : DB F) : Nomenclature :=
  match db.nomenclatures.find? (fun n => n.Code == code && n.Brand == brand) with
  | some n => partialScan (env.scannedColumns code brand) n
  | none => Nomenclature.zero

/-- The catalog point query `SELECT ... FROM nomenclatures where code = ? and
brand = ?` followed by `Scan`: the first row with exactly this code and brand,
`ErrNoRows` when there is none, another error when the query or the `Scan`
fails.  On `ErrNoRows` the destination stays the zero value; on another error
it holds what `Scan` had assigned. -/
def queryNomenclature (env : Store F) (code brand : String) (db : DB F) :
    (Nomenclature × Option SqlError) × DB F :=
  let db1 := { db with statements := db.statements ++ [Stmt.selectNomenclature code brand] }
  if env.queryFails code brand then ((scannedOnError env code brand db, some .other), db1)
  else
    match db.nomenclatures.find? (fun n => n.Code == code && n.Brand == brand) with
    | some n => ((n, none), db1)
    | none => ((Nomenclature.zero, some .ErrNoRows), db1)

/-! ## The program -/

/-- Go `getNomenclature`. -/
def getNomenclature (env : Store F) (code brand : String) (db : DB F) :
    (Nomenclature × Option SqlError) × DB F :=
  let ((nomenclature, err), db1) := queryNomenclature env code brand db
  if err ≠ some SqlError.ErrNoRows then ((nomenclature, none), db1)
  else ((nomenclature, err), db1)

/-- Go `addNomenclature`. -/
def addNomenclature (nomenclature : Nomenclature) (userBy : Int) : NomenclatureTuple :=
  { code := nomenclature.Code, replace_code := nomenclature.ReplaceCode,
    brand := nomenclature.Brand, description := nomenclature.Description,
    is_auto_added := 1, created_by := userBy, updated_by := userBy }

/-- The three `SET ...=0;` statements that open a flush. -/
def relax : List (Stmt F) :=
  [.set "autocommit" 0, .set "unique_checks" 0, .set "foreign_key_checks" 0]

/-- The three `SET ...=1;` statements that close a flush. -/
def restore : List (Stmt F) :=
  [.set "autocommit" 1, .set "unique_checks" 1, .set "foreign_key_checks" 1]

/-- Go slice expression `l[start:stop]`; `none` when it panics. -/
def slice {α : Type} (l : List α) (start stop : Int) : Option (List α) :=
  if 0 ≤ start ∧ start ≤ stop ∧ stop ≤ l.length then
    some ((l.drop start.toNat).take (stop - start).toNat)
  else none

/-- The page count `int(math.Ceil(float64(len/bulkCount) + 0.5))`: the integer
quotient plus a half, rounded up. -/
def pageCount (len bulkCount : Int) : Int :=
  len / bulkCount + 1

/-- The `for i := 1; i <= pages; i++` loop shared by `insertNomenclatures`
(lines 139-156) and `insertPrices` (lines 175-193): `n` iterations are left,
`mk` builds the `INSERT` statement of one chunk. -/
def bulkLoop {α : Type} (env : Store F) (mk : List α → Stmt F) (items : List α)
    (bulkCount : Int) : Nat → Int → DB F → Outcome (DB F) Unit
  | 0, _, db => .ok () db
  | n + 1, i, db =>
    let start := (i - 1) * bulkCount
    let stop := i * bulkCount - 1
    let stop := if stop > (items.length : Int) - 1 then (items.length : Int) - 1 else stop
    match slice items start stop with
    | none => .panic db
    | some bulk =>
      match send env (mk bulk) db with
      | (true, db1) => bulkLoop env mk items bulkCount n (i + 1) db1
      | (false, db1) => .fatal "Failed: " db1

/-- Go `insertNomenclatures`; the `nil` slice is the empty list. -/
def insertNomenclatures (env : Store F) (nomenclatures : List NomenclatureTuple)
    (db : DB F) : Outcome (DB F) Unit :=
  if !nomenclatures.isEmpty then
    let db := Exec env (.set "autocommit" 0) db
    let db := Exec env (.set "unique_checks" 0) db
    let db := Exec env (.set "foreign_key_checks" 0) db
    let bulkCount : Int := 50000
    let pages := pageCount nomenclatures.length bulkCount
    match bulkLoop env Stmt.insertNomenclatures nomenclatures bulkCount pages.toNat 1 db with
    | .ok _ db =>
      let db := Exec env (.set "autocommit" 1) db
      let db := Exec env (.set "unique_checks" 1) db
      let db := Exec env (.set "foreign_key_checks" 1) db
      .ok () db
    | .fatal msg db => .fatal msg db
    | .panic db => .panic db
  else .ok () db

/-- Go `insertPrices`; the `nil` slice is the empty list. -/
def insertPrices (env : Store F) (prices : List (PriceTuple F)) (db : DB F) :
    Outcome (DB F) Unit :=
  if !prices.isEmpty then
    let bulkCount : Int := 10000
    let db := Exec env (.set "autocommit" 0) db
    let db := Exec env (.set "unique_checks" 0) db
    let db := Exec env (.set "foreign_key_checks" 0) db
    let pages := pageCount prices.length bulkCount
    match bulkLoop env Stmt.insertPrices prices bulkCount pages.toNat 1 db with
    | .ok _ db =>
      let db := Exec env (.set "autocommit" 1) db
      let db := Exec env (.set "unique_checks" 1) db
      let db := Exec env (.set "foreign_key_checks" 1) db
      .ok () db
    | .fatal msg db => .fatal msg db
    | .panic db => .panic db
  else .ok () db

/-- Go `addErr`: the settings are restored before the result of the insert is
looked at, and a failed insert is ignored. -/
def addErr (env : Store F) (uploadId : Int) (row : Int) (textError : String) (db : DB F) : DB F :=
  let db := Exec env (.set "autocommit" 0) db
  let db := Exec env (.set "unique_checks" 0) db
  let db := Exec env (.set "foreign_key_checks" 0) db
  let db := (send env (.insertUploadRow { upload_id := uploadId, no_row := row, text := textError }) db).2
  let db := Exec env (.set "autocommit" 1) db
  let db := Exec env (.set "unique_checks" 1) db
  let db := Exec env (.set "foreign_key_checks" 1) db
  db

/-- Result of `cells[i].FormattedValue()`. -/
inductive CellRead where
  | panic
  | err
  | val (s : String)
deriving DecidableEq

/-- Go `cells[i].FormattedValue()`: a panic when `i` is out of range. -/
def readCell (cells : List Cell) (i : Int) : CellRead :=
  if i < 0 then .panic
  else
    match cells[i.toNat]? with
    | none => .panic
    | some c =>
      match c.FormattedValue with
      | none => .err
      | some s => .val s

/-- The three results of `searchNomenclatures`: price tuple, parked row,
pending create. -/
abbrev SearchResult (F : Type) := Option (PriceTuple F) × Option Row × Option NomenclatureTuple

/-- Go `searchNomenclatures`. -/
def searchNomenclatures (fl : FloatOps F) (env : Store F) (idx : Int) (row : Row)
    (fileConfig : Upload F) (columnsConfig : ColumnsConfig) (db : DB F) :
    Outcome (DB F) (SearchResult F) :=
  let cells := row.Cells
  let uploadId := fileConfig.ID
  let priceListId := fileConfig.PriceListId
  let fail := fun (textError : String) (d : DB F) =>
    (Outcome.ok (none, none, none) (addErr env fileConfig.ID (idx + 1) textError d) :
      Outcome (DB F) (SearchResult F))
  match (if fileConfig.Brand ≠ "" then CellRead.val fileConfig.Brand
         else readCell cells (columnsConfig.Brand - 1)) with
  | .panic => .panic db
  | .err => fail "Не верный формат бренда" db
  | .val brand =>
  match readCell cells (columnsConfig.Code - 1) with
  | .panic => .panic db
  | .err => fail "Не верный формат кода номенклатуры" db
  | .val code =>
  if code = "" ∨ brand = "" then fail "Не верые данные номенклатуры" db
  else
  match getNomenclature env code brand db with
  | ((nomenclature, nomenclatureErr), db) =>
  match (if columnsConfig.ReplaceCode > 0 then readCell cells (columnsConfig.ReplaceCode - 1)
         else CellRead.val "") with
  | .panic => .panic db
  | .err => fail "Не верный формат кода заменителя" db
  | .val replaceCode =>
  match (if columnsConfig.Description > 0 then readCell cells (columnsConfig.Description - 1)
         else CellRead.val "") with
  | .panic => .panic db
  | .err => fail "Не верный формат описания позиции" db
  | .val description =>
  if nomenclatureErr ≠ none then
    .ok (none, some row,
      some (addNomenclature { nomenclature with Code := code, Brand := brand,
                                                ReplaceCode := replaceCode,
                                                Description := description }
        fileConfig.CreatedBy)) db
  else
  match readCell cells (columnsConfig.Price - 1) with
  | .panic => .panic db
  | .err => fail "Не верный формат цены" db
  | .val priceDefaultCellValue =>
  match fl.ParseFloat priceDefaultCellValue with
  | none => fail "Не определена цена" db
  | some priceDefault =>
  let price := fl.mul (fl.mul priceDefault fileConfig.CurrencyValue) fileConfig.Markup
  match readCell cells (columnsConfig.Amount - 1) with
  | .panic => .panic db
  | .err => fail "Не верный формат количества" db
  | .val amountCellValue =>
  match ParseInt amountCellValue with
  | none => fail "Не определено количество" db
  | some amount =>
  match readCell cells (columnsConfig.OwnerId - 1) with
  | .panic => .panic db
  | .err => fail "Не верный формат идентификатора владельца позиции" db
  | .val ownerId =>
  if ownerId = "" then fail "Не определен идентификатор владельца позиции" db
  else
  match (if columnsConfig.Comment > 0 then readCell cells (columnsConfig.Comment - 1)
         else CellRead.val "") with
  | .panic => .panic db
  | .err => fail "Не верный формат коментария к позиции" db
  | .val comment =>
  .ok (some { nomenclature_id := nomenclature.ID, price_list_id := priceListId,
              upload_id := uploadId, owner_id := ownerId, code := nomenclature.Code,
              replace_code := nomenclature.ReplaceCode,
              description := nomenclature.Description, price := price,
              price_default := priceDefault, amount := amount, comment := comment,
              created_by := fileConfig.CreatedBy }, none, none) db

/-- Go's 64-bit `int` arithmetic: the representative of `x` modulo `2^64` in
the range from `-2^63` to `2^63 - 1`. -/
def wrapInt64 (x : Int) : Int :=
  (x + 2 ^ 63) % 2 ^ 64 - 2 ^ 63

/-- What the scanning pass of `reedFile` accumulates. -/
structure ScanAcc (F : Type) where
  priceRows : List (PriceTuple F)
  missRows : List xlsxMissRow
  newNomenclatures : List NomenclatureTuple
deriving DecidableEq

/-- The scanning pass of `reedFile` (lines 239-253): `for idx, row := range
sheet.Rows`, the rows left to visit starting at index `idx`. -/
def scanRows (fl : FloatOps F) (env : Store F) (fileConfig : Upload F)
    (columnsConfig : ColumnsConfig) :
    List (Option Row) → Int → ScanAcc F → DB F → Outcome (DB F) (ScanAcc F)
  | [], _, acc, db => .ok acc db
  | none :: rest, idx, acc, db => scanRows fl env fileConfig columnsConfig rest (idx + 1) acc db
  | some row :: rest, idx, acc, db =>
    if idx ≥ wrapInt64 (fileConfig.StartRow - 1) then
      match searchNomenclatures fl env idx row fileConfig columnsConfig db with
      | .ok (priceRow, missRow, newNomenclature) db =>
        let priceRows :=
          match priceRow with
          | some p => acc.priceRows ++ [p]
          | none => acc.priceRows
        let missRows :=
          match missRow with
          | some m => acc.missRows ++ [{ Idx := idx, Row := m }]
          | none => acc.missRows
        let newNomenclatures :=
          match newNomenclature with
          | some t => acc.newNomenclatures ++ [t]
          | none => acc.newNomenclatures
        scanRows fl env fileConfig columnsConfig rest (idx + 1)
          { priceRows := priceRows, missRows := missRows, newNomenclatures := newNomenclatures } db
      | .fatal msg db => .fatal msg db
      | .panic db => .panic db
    else scanRows fl env fileConfig columnsConfig rest (idx + 1) acc db

/-- The reconciling pass of `reedFile` (lines 257-262): `for _, row := range
missRows`; only the price tuple of each result is looked at. -/
def reconcileRows (fl : FloatOps F) (env : Store F) (fileConfig : Upload F)
    (columnsConfig : ColumnsConfig) :
    List xlsxMissRow → List (PriceTuple F) → DB F → Outcome (DB F) (List (PriceTuple F))
  | [], priceRows, db => .ok priceRows db
  | row :: rest, priceRows, db =>
    match searchNomenclatures fl env row.Idx row.Row fileConfig columnsConfig db with
    | .ok (priceRow, _, _) db =>
      let priceRows :=
        match priceRow with
        | some p => priceRows ++ [p]
        | none => priceRows
      reconcileRows fl env fileConfig columnsConfig rest priceRows db
    | .fatal msg db => .fatal msg db
    | .panic db => .panic db

/-- Go `reedFile`.  `fs` is the file system seen through `xlsx.OpenFile`
(`none` when it returns an error). -/
def reedFile (fl : FloatOps F) (env : Store F) (fs : String → Option XlsxFile)
    (fileConfig : Upload F) (db : DB F) : Outcome (DB F) Unit :=
  match fileConfig.ColumnsConfig with
  | none => .fatal "Failed column config: " db
  | some columnsConfig =>
    let ext := Ext fileConfig.FileName
    if ext = ".xls" then .ok () db
    else if ext = ".xlsx" then
      match fs fileConfig.FileName with
      | none => .fatal "Failed open file: " db
      | some xlFile =>
        match xlFile.Sheets with
        | [] => .panic db
        | sheet :: _ =>
          match scanRows fl env fileConfig columnsConfig sheet.Rows 0
              { priceRows := [], missRows := [], newNomenclatures := [] } db with
          | .fatal msg db => .fatal msg db
          | .panic db => .panic db
          | .ok acc db =>
            match insertNomenclatures env acc.newNomenclatures db with
            | .fatal msg db => .fatal msg db
            | .panic db => .panic db
            | .ok _ db =>
              match reconcileRows fl env fileConfig columnsConfig acc.missRows acc.priceRows db with
              | .fatal msg db => .fatal msg db
              | .panic db => .panic db
              | .ok priceRows db => insertPrices env priceRows db
    else if ext = ".csv" then .ok () db
    else if ext = ".txt" then .ok () db
    else .fatal "Unknown format: " db

end Program

/-! ## Observations on outcomes -/

/-- The state in which a computation ended. -/
def Outcome.state {σ α : Type} : Outcome σ α → σ
  | .ok _ s => s
  | .fatal _ s => s
  | .panic s => s

/-- The value returned, when the computation returned. -/
def Outcome.result {σ α : Type} : Outcome σ α → Option α
  | .ok a _ => some a
  | .fatal _ _ => none
  | .panic _ => none

/-- The outcome with the returned value replaced through `f`. -/
def Outcome.mapResult {σ α β : Type} (f : α → β) : Outcome σ α → Outcome σ β
  | .ok a s => .ok (f a) s
  | .fatal msg s => .fatal msg s
  | .panic s => .panic s

/-- Text of the cell at 1-based position `pos`; the empty string when the cell
is missing or does not read. -/
def cellText (cells : List Cell) (pos : Int) : String :=
  match readCell cells (pos - 1) with
  | .val s => s
  | _ => ""

/-- The pending create that the claim about parked rows describes: built from
the code, brand, replacement code and description that the row carries (the
brand of the job when it has one, no replacement code or description when the
column is not mapped). -/
def pendingOf {F : Type} (fileConfig : Upload F) (columnsConfig : ColumnsConfig) (row : Row) :
    NomenclatureTuple :=
  { code := cellText row.Cells columnsConfig.Code
    replace_code := if columnsConfig.ReplaceCode > 0 then cellText row.Cells columnsConfig.ReplaceCode else ""
    brand := if fileConfig.Brand ≠ "" then fileConfig.Brand else cellText row.Cells columnsConfig.Brand
    description := if columnsConfig.Description > 0 then cellText row.Cells columnsConfig.Description else ""
    is_auto_added := 1
    created_by := fileConfig.CreatedBy
    updated_by := fileConfig.CreatedBy }

/-! ## Predicates used in the statements -/

/-- Trace of a flush that starts in state `db`: either it returned and the
statements it issued are the three relaxing ones, bulk inserts that the store
accepted, and the three restoring ones; or it halted in `failOnError` and the
statements it issued are the three relaxing ones, accepted bulk inserts, and
last the bulk insert that the store rejected. -/
def FlushTrace {F α : Type} (env : Store F) (mk : List α → Stmt F) (db : DB F)
    (o : Outcome (DB F) Unit) : Prop :=
  (∃ d ins, o = .ok () d
      ∧ d.statements = db.statements ++ relax ++ ins ++ restore
      ∧ ∀ s ∈ ins, (∃ b, s = mk b) ∧ env.rejects s = false)
  ∨ (∃ d ins b, o = .fatal "Failed: " d
      ∧ d.statements = db.statements ++ relax ++ ins ++ [mk b]
      ∧ (∀ s ∈ ins, (∃ b, s = mk b) ∧ env.rejects s = false)
      ∧ env.rejects (mk b) = true)

/-! ## Sample inputs -/

/-- A store that accepts every statement and answers every query. -/
def acceptAll : Store Float64 :=
  { rejects := fun _ => false, queryFails := fun _ _ => false, scannedColumns := fun _ _ => 0 }

/-- A store that answers every bulk insert with an error. -/
def rejectBulk : Store Float64 :=
  { rejects := fun s =>
      match s with
      | .insertNomenclatures _ => true
      | .insertPrices _ => true
      | _ => false
    queryFails := fun _ _ => false
    scannedColumns := fun _ _ => 0 }

/-- A store that rejects a bulk insert without tuples (the statement text ends
with `VALUES` and nothing after it) and accepts every other statement. -/
def rejectEmptyBulk : Store Float64 :=
  { rejects := fun s =>
      match s with
      | .insertNomenclatures [] => true
      | .insertPrices [] => true
      | _ => false
    queryFails := fun _ _ => false
    scannedColumns := fun _ _ => 0 }

/-- The `float64` 1.0. -/
def f1_0 : Float64 := .finite false 4503599627370496 (-52)

/-- The `float64` nearest to 1.2. -/
def f1_2 : Float64 := .finite false 5404319552844595 (-52)

/-- The `float64` 100.0. -/
def f100 : Float64 := .finite false 7036874417766400 (-46)

/-- The `float64` 120.0. -/
def f120 : Float64 := .finite false 8444249301319680 (-46)

/-- Code in column 1, price in 2, quantity in 3, owner id in 4; no other column. -/
def sampleColumns : ColumnsConfig :=
  { OwnerId := 4, Code := 1, ReplaceCode := 0, Brand := 0, Description := 0, Price := 2,
    Amount := 3, Comment := 0 }

/-- An upload job with brand override `ACME`, multiplier 1.0 and markup 1.2. -/
def sampleJob : Upload Float64 :=
  { ID := 1, PriceListId := 2, FileName := "prices.xlsx", Brand := "ACME", CurrencyValue := f1_0,
    Markup := f1_2, ColumnsConfig := some sampleColumns, StartRow := 1, CreatedBy := 9 }

/-- A row whose cells all read, with the given contents. -/
def textRow (l : List String) : Row :=
  { Cells := l.map (fun s => { FormattedValue := some s }) }

/-- A store state whose catalog holds the single entry (`C1`, `ACME`). -/
def sampleDB : DB Float64 :=
  { nomenclatures := [{ ID := 7, Code := "C1", ReplaceCode := "R", Brand := "ACME",
                        Description := "d" }],
    prices := [], price_list_upload_rows := [], statements := [] }

/-- A file system in which every file opens as one sheet with the given rows. -/
def oneSheet (rows : List Row) : String → Option XlsxFile :=
  fun _ => some { Sheets := [{ Rows := rows.map some }] }

/-- The price tuple of product `C1`: base price 100, quantity 5. -/
def priceC1 : PriceTuple Float64 :=
  { nomenclature_id := 7, price_list_id := 2, upload_id := 1, owner_id := "own", code := "C1",
    replace_code := "R", description := "d", price := f120, price_default := f100, amount := 5,
    comment := "", created_by := 9 }

/-- The pending create of a new product with the given code. -/
def pendingNew (code : String) : NomenclatureTuple :=
  { code := code, replace_code := "", brand := "ACME", description := "", is_auto_added := 1,
    created_by := 9, updated_by := 9 }

/-- A row with the new product `A`: base price 100, quantity 5. -/
def rowA : Row := textRow ["A", "100", "5", "own"]

/-- A row with the new product `B`: base price 100, quantity 5. -/
def rowB : Row := textRow ["B", "100", "5", "own"]

/-- A well-formed row with the existing product `C1`. -/
def rowC1 : Row := textRow ["C1", "100", "5", "own"]

/-- A row with the existing product `C1` and the malformed price `abc`. -/
def rowC1BadPrice : Row := textRow ["C1", "abc", "5", "own"]

/-- A row with the new product `N` and the malformed price `abc`. -/
def rowBadPrice : Row := textRow ["N", "abc", "5", "own"]

/-- The price tuple of product `A` once its catalog entry has identifier 8. -/
def priceA : PriceTuple Float64 :=
  { priceC1 with nomenclature_id := 8, code := "A", replace_code := "", description := "" }

/-- A second price tuple of product `C1`, with quantity 6. -/
def priceC1six : PriceTuple Float64 :=
  { priceC1 with amount := 6 }

/-- The empty accumulator with which `reedFile` starts the scanning pass. -/
def emptyAcc : ScanAcc Float64 :=
  { priceRows := [], missRows := [], newNomenclatures := [] }

/-- The scanning pass on the sheet of the two new products `A` and `B`. -/
def scanTwoNew : Outcome (DB Float64) (ScanAcc Float64) :=
  scanRows binary64 acceptAll sampleJob sampleColumns [some rowA, some rowB] 0 emptyAcc sampleDB

/-- The flush that follows `scanTwoNew`. -/
def flushTwoNew : Outcome (DB Float64) Unit :=
  insertNomenclatures acceptAll [pendingNew "A", pendingNew "B"] scanTwoNew.state

/-- The scanning pass on the sheet of the single new product `A`. -/
def scanOneNew : Outcome (DB Float64) (ScanAcc Float64) :=
  scanRows binary64 acceptAll sampleJob sampleColumns [some rowA] 0 emptyAcc sampleDB

/-- The flush that follows `scanOneNew`. -/
def flushOneNew : Outcome (DB Float64) Unit :=
  insertNomenclatures acceptAll [pendingNew "A"] scanOneNew.state

/-- The scanning pass on the sheet of a well-formed row followed by the row
with a new product and a malformed price. -/
def scanBadPrice : Outcome (DB Float64) (ScanAcc Float64) :=
  scanRows binary64 acceptAll sampleJob sampleColumns [some rowC1, some rowBadPrice] 0 emptyAcc
    sampleDB

/-- The flush that follows `scanBadPrice`. -/
def flushBadPrice : Outcome (DB Float64) Unit :=
  insertNomenclatures acceptAll [pendingNew "N"] scanBadPrice.state

/-- The sample mapping with the brand in column 5. -/
def columnsWithBrand : ColumnsConfig :=
  { sampleColumns with Brand := 5 }

/-- The sample job without brand override. -/
def jobNoBrand : Upload Float64 :=
  { sampleJob with Brand := "" }

/-- The sample job with another file name. -/
def jobNamed (name : String) : Upload Float64 :=
  { sampleJob with FileName := name }

/-- Whether a computation ended in a run-time panic. -/
def Outcome.panicked {σ α : Type} : Outcome σ α → Bool
  | .panic _ => true
  | _ => false

/-- Row errors handed to the store through `addErr`, in issue order. -/
def errorsIssued {F : Type} (l : List (Stmt F)) : List RowError :=
  l.filterMap (fun s =>
    match s with
    | .insertUploadRow e => some e
    | _ => none)

/-- State `d` differs from `db` by catalog queries only: same tables, same row
errors handed to the store. -/
def Quiet {F : Type} (db d : DB F) : Prop :=
  d.nomenclatures = db.nomenclatures ∧ d.prices = db.prices
  ∧ d.price_list_upload_rows = db.price_list_upload_rows
  ∧ errorsIssued d.statements = errorsIssued db.statements

/-- A store whose catalog query always fails with an error other than
`sql.ErrNoRows` and that accepts every statement. -/
def failingQueries : Store Float64 :=
  { rejects := fun _ => false, queryFails := fun _ _ => true, scannedColumns := fun _ _ => 0 }

/-- The price tuple built from the zero-valued catalog entry: base price 100,
quantity 5. -/
def priceZeroEntry : PriceTuple Float64 :=
  { priceC1 with nomenclature_id := 0, code := "", replace_code := "", description := "" }

/-- A row with the new product `B` and the malformed quantity `x`. -/
def rowBBadAmount : Row := textRow ["B", "100", "x", "own"]

/-- The scanning pass on the sheet of the new product `A` followed by the new
product `B` with a malformed quantity. -/
def scanBadAmountLast : Outcome (DB Float64) (ScanAcc Float64) :=
  scanRows binary64 acceptAll sampleJob sampleColumns [some rowA, some rowBBadAmount] 0 emptyAcc
    sampleDB

/-- The flush that follows `scanBadAmountLast`. -/
def flushBadAmountLast : Outcome (DB Float64) Unit :=
  insertNomenclatures acceptAll [pendingNew "A", pendingNew "B"] scanBadAmountLast.state

/-- The scanning pass on the same two rows in the other order. -/
def scanBadAmountFirst : Outcome (DB Float64) (ScanAcc Float64) :=
  scanRows binary64 acceptAll sampleJob sampleColumns [some rowBBadAmount, some rowA] 0 emptyAcc
    sampleDB

/-- The flush that follows `scanBadAmountFirst`. -/
def flushBadAmountFirst : Outcome (DB Float64) Unit :=
  insertNomenclatures acceptAll [pendingNew "B", pendingNew "A"] scanBadAmountFirst.state

/-- A store in which the `Scan` of the catalog row fails on its third column
(the replacement code), after the identifier and the code were assigned. -/
def failingScan : Store Float64 :=
  { rejects := fun _ => false, queryFails := fun _ _ => true, scannedColumns := fun _ _ => 2 }

/-- The price tuple built from the partly scanned entry of `C1`: identifier
and code set, replacement code and description empty. -/
def pricePartEntry : PriceTuple Float64 :=
  { priceC1 with replace_code := "", description := "" }

set_option maxRecDepth 100000

/-! ## Literal tuples -/

/-- The text of a pending create is never Go's empty string. -/
theorem nomenclatureTuple_text_ne_empty (t : NomenclatureTuple) : t.text ≠ "" := by
  intro h
  have h1 := congrArg String.length h
  simp only [NomenclatureTuple.text, String.length_append] at h1
  have h2 : "(\"".length = 2 := by decide
  have h3 : "".length = 0 := by decide
  omega

/-- The text of a price tuple is never Go's empty string. -/
theorem priceTuple_text_ne_empty {F : Type} (fl : FloatOps F) (t : PriceTuple F) :
    t.text fl ≠ "" := by
  intro h
  have h1 := congrArg String.length h
  simp only [PriceTuple.text, String.length_append] at h1
  have h2 : "(".length = 1 := by decide
  have h3 : "".length = 0 := by decide
  omega

/-! ## Statements issued -/

theorem send_statements {F : Type} (env : Store F) (s : Stmt F) (db : DB F) :
    (send env s db).2.statements = db.statements ++ [s] := by
  unfold send
  split
  · rfl
  · cases s <;> rfl

theorem Exec_statements {F : Type} (env : Store F) (s : Stmt F) (db : DB F) :
    (Exec env s db).statements = db.statements ++ [s] :=
  send_statements env s db

theorem send_fst {F : Type} (env : Store F) (s : Stmt F) (db : DB F) :
    (send env s db).1 = !env.rejects s := by
  unfold send
  split <;> simp_all

/-! ## One row -/

theorem pendingOf_of_reads {F : Type} (fileConfig : Upload F) (columnsConfig : ColumnsConfig)
    (row : Row) (brand code replaceCode description : String) (n : Nomenclature)
    (hbrand : (if fileConfig.Brand ≠ "" then CellRead.val fileConfig.Brand
               else readCell row.Cells (columnsConfig.Brand - 1)) = CellRead.val brand)
    (hcode : readCell row.Cells (columnsConfig.Code - 1) = CellRead.val code)
    (hreplace : (if columnsConfig.ReplaceCode > 0 then readCell row.Cells (columnsConfig.ReplaceCode - 1)
                 else CellRead.val "") = CellRead.val replaceCode)
    (hdescription : (if columnsConfig.Description > 0
                     then readCell row.Cells (columnsConfig.Description - 1)
                     else CellRead.val "") = CellRead.val description) :
    addNomenclature { n with Code := code, Brand := brand, ReplaceCode := replaceCode,
                             Description := description } fileConfig.CreatedBy
      = pendingOf fileConfig columnsConfig row := by
  simp only [addNomenclature, pendingOf, cellText, hcode]
  congr 1
  · split at hreplace
    · rename_i h; simp [h, hreplace]
    · rename_i h; simp at hreplace; simp [h, hreplace]
  · split at hbrand
    · rename_i h; simp at hbrand; subst hbrand; simp [h]
    · rename_i h; simp [h, hbrand]
  · split at hdescription
    · rename_i h; simp [h, hdescription]
    · rename_i h; simp at hdescription; simp [h, hdescription]

/-- The four ways in which `searchNomenclatures` ends: a panic; an error row
(all three results empty, the state left by `addErr`); a parked row with its
pending create; a price tuple alone. -/
theorem searchNomenclatures_cases {F : Type} (fl : FloatOps F) (env : Store F) (idx : Int)
    (row : Row) (fileConfig : Upload F) (columnsConfig : ColumnsConfig) (db : DB F) :
    (∃ d, searchNomenclatures fl env idx row fileConfig columnsConfig db = .panic d)
    ∨ (∃ msg d, searchNomenclatures fl env idx row fileConfig columnsConfig db
          = .ok (none, none, none) (addErr env fileConfig.ID (idx + 1) msg d))
    ∨ (∃ d, searchNomenclatures fl env idx row fileConfig columnsConfig db
          = .ok (none, some row, some (pendingOf fileConfig columnsConfig row)) d)
    ∨ (∃ p d, searchNomenclatures fl env idx row fileConfig columnsConfig db
          = .ok (some p, none, none) d) := by
  unfold searchNomenclatures
  simp only []
  split
  · exact Or.inl ⟨_, rfl⟩
  · exact Or.inr (Or.inl ⟨_, _, rfl⟩)
  rename_i brand hbrand
  split
  · exact Or.inl ⟨_, rfl⟩
  · exact Or.inr (Or.inl ⟨_, _, rfl⟩)
  rename_i code hcode
  split
  · exact Or.inr (Or.inl ⟨_, _, rfl⟩)
  split
  · exact Or.inl ⟨_, rfl⟩
  · exact Or.inr (Or.inl ⟨_, _, rfl⟩)
  rename_i replaceCode hreplace
  split
  · exact Or.inl ⟨_, rfl⟩
  · exact Or.inr (Or.inl ⟨_, _, rfl⟩)
  rename_i description hdescription
  split
  · refine Or.inr (Or.inr (Or.inl ⟨(getNomenclature env code brand db).2, ?_⟩))
    rw [pendingOf_of_reads fileConfig columnsConfig row brand code replaceCode description
      _ hbrand hcode hreplace hdescription]
  split
  · exact Or.inl ⟨_, rfl⟩
  · exact Or.inr (Or.inl ⟨_, _, rfl⟩)
  split
  · exact Or.inr (Or.inl ⟨_, _, rfl⟩)
  split
  · exact Or.inl ⟨_, rfl⟩
  · exact Or.inr (Or.inl ⟨_, _, rfl⟩)
  split
  · exact Or.inr (Or.inl ⟨_, _, rfl⟩)
  split
  · exact Or.inl ⟨_, rfl⟩
  · exact Or.inr (Or.inl ⟨_, _, rfl⟩)
  split
  · exact Or.inr (Or.inl ⟨_, _, rfl⟩)
  split
  · exact Or.inl ⟨_, rfl⟩
  · exact Or.inr (Or.inl ⟨_, _, rfl⟩)
  exact Or.inr (Or.inr (Or.inr ⟨_, _, rfl⟩))

/-- C9, at a failing input: the job has no brand override and the mapping has
no brand column (position 0), every required position is present and the row
has all its cells.  `searchNomenclatures` indexes `cells[-1]` and panics: no
RowError is recorded and nothing is returned.  With the brand column present
and its cell empty the RowError for row `idx + 1` is recorded. -/
theorem searchNomenclatures_absent_brand_column_panics :
    searchNomenclatures binary64 acceptAll 0 rowC1 jobNoBrand sampleColumns sampleDB
      = .panic sampleDB
    ∧ (searchNomenclatures binary64 acceptAll 0 (textRow ["C1", "100", "5", "own", ""])
        jobNoBrand columnsWithBrand sampleDB).result = some (none, none, none)
    ∧ (searchNomenclatures binary64 acceptAll 0 (textRow ["C1", "100", "5", "own", ""])
        jobNoBrand columnsWithBrand sampleDB).state.price_list_upload_rows
      = [⟨1, 1, "Не верые данные номенклатуры"⟩] := by
  decide

/-! ## The brand override -/

theorem queryNomenclature_state {F : Type} (env : Store F) (code brand : String) (db : DB F) :
    (queryNomenclature env code brand db).2
      = { db with statements := db.statements ++ [Stmt.selectNomenclature code brand] } := by
  unfold queryNomenclature
  simp only []
  split
  · rfl
  · split <;> rfl

theorem getNomenclature_state {F : Type} (env : Store F) (code brand : String) (db : DB F) :
    (getNomenclature env code brand db).2
      = { db with statements := db.statements ++ [Stmt.selectNomenclature code brand] } := by
  rw [← queryNomenclature_state env code brand db]
  unfold getNomenclature
  simp only []
  split <;> rfl

theorem getNomenclature_statements {F : Type} (env : Store F) (code brand : String) (db : DB F) :
    (getNomenclature env code brand db).2.statements
      = db.statements ++ [Stmt.selectNomenclature code brand] := by
  rw [getNomenclature_state]

theorem addErr_statements {F : Type} (env : Store F) (uploadId row : Int) (textError : String)
    (db : DB F) :
    (addErr env uploadId row textError db).statements
      = db.statements ++ relax
          ++ [Stmt.insertUploadRow { upload_id := uploadId, no_row := row, text := textError }]
          ++ restore := by
  simp [addErr, Exec_statements, send_statements, relax, restore]

theorem searchNomenclatures_selects {F : Type} (fl : FloatOps F) (env : Store F) (idx : Int)
    (row : Row) (fileConfig : Upload F) (columnsConfig : ColumnsConfig) (db : DB F)
    (code brand : String)
    (hmem : Stmt.selectNomenclature code brand
      ∈ (searchNomenclatures fl env idx row fileConfig columnsConfig db).state.statements) :
    Stmt.selectNomenclature code brand ∈ db.statements
    ∨ (if fileConfig.Brand ≠ "" then CellRead.val fileConfig.Brand
       else readCell row.Cells (columnsConfig.Brand - 1)) = CellRead.val brand := by
  unfold searchNomenclatures at hmem
  simp only [] at hmem
  repeat' split at hmem
  all_goals
    simp only [Outcome.state, addErr_statements, getNomenclature_statements, relax, restore,
      List.mem_append, List.mem_cons, List.mem_singleton, Stmt.selectNomenclature.injEq,
      List.not_mem_nil, or_false, false_or, reduceCtorEq] at hmem
  all_goals first
    | exact Or.inl hmem
    | (rcases hmem with h | h
       · exact Or.inl h
       · obtain ⟨-, rfl⟩ := h
         right; assumption)

/-- C10: with a non-empty brand override, two calls of `searchNomenclatures`
whose mappings differ at most in the brand position and whose rows agree on
every cell that a field other than the brand points to end alike: same kind of
outcome, same state of the store (tables, recorded row errors, statements),
same price record and same pending create, and where one parks its row the
other parks its own.  Every catalog query issued by the call carries the brand
of the job. -/
theorem brand_override_ignores_brand_column {F : Type} (fl : FloatOps F) (env : Store F)
    (idx : Int) (row1 row2 : Row) (fileConfig : Upload F) (columnsConfig : ColumnsConfig)
    (brandPosition : Int) (db : DB F)
    (hbrand : fileConfig.Brand ≠ "")
    (hcells : ∀ pos ∈ [columnsConfig.OwnerId, columnsConfig.Code, columnsConfig.ReplaceCode,
        columnsConfig.Description, columnsConfig.Price, columnsConfig.Amount,
        columnsConfig.Comment],
      readCell row2.Cells (pos - 1) = readCell row1.Cells (pos - 1)) :
    searchNomenclatures fl env idx row2 fileConfig { columnsConfig with Brand := brandPosition } db
      = (searchNomenclatures fl env idx row1 fileConfig columnsConfig db).mapResult
          (fun r => (r.1, r.2.1.map (fun _ => row2), r.2.2))
    ∧ (∀ r m, (searchNomenclatures fl env idx row1 fileConfig columnsConfig db).result = some r →
        r.2.1 = some m → m = row1)
    ∧ (∀ code brand, Stmt.selectNomenclature code brand
          ∈ (searchNomenclatures fl env idx row1 fileConfig columnsConfig db).state.statements →
        Stmt.selectNomenclature code brand ∈ db.statements ∨ brand = fileConfig.Brand) := by
  have h1 := hcells columnsConfig.OwnerId (by simp)
  have h2 := hcells columnsConfig.Code (by simp)
  have h3 := hcells columnsConfig.ReplaceCode (by simp)
  have h4 := hcells columnsConfig.Description (by simp)
  have h5 := hcells columnsConfig.Price (by simp)
  have h6 := hcells columnsConfig.Amount (by simp)
  have h7 := hcells columnsConfig.Comment (by simp)
  refine ⟨?_, ?_, ?_⟩
  · unfold searchNomenclatures
    simp only [if_pos hbrand, h1, h2, h3, h4, h5, h6, h7]
    repeat' split
    all_goals simp_all [Outcome.mapResult]
  · intro r m hr hm
    rcases searchNomenclatures_cases fl env idx row1 fileConfig columnsConfig db with
      ⟨d, h⟩ | ⟨msg, d, h⟩ | ⟨d, h⟩ | ⟨p, d, h⟩
    all_goals
      rw [h] at hr
      simp only [Outcome.result, Option.some.injEq, reduceCtorEq] at hr
    · subst hr; simp at hm
    · subst hr; simp at hm; exact hm.symm
    · subst hr; simp at hm
  · intro code brand hmem
    rcases searchNomenclatures_selects fl env idx row1 fileConfig columnsConfig db code brand hmem
      with h | h
    · exact Or.inl h
    · rw [if_pos hbrand] at h
      exact Or.inr (CellRead.val.inj h).symm

/-- C10 on two calls under the brand override `ACME`: the first maps the brand
to column 5 of a row whose fifth cell reads `X`, the second has no brand column
and a row whose fifth cell reads `Y`. -/
theorem brand_override_ignores_brand_column_witness :
    searchNomenclatures binary64 acceptAll 0 (textRow ["C1", "100", "5", "own", "Y"]) sampleJob
        { columnsWithBrand with Brand := 0 } sampleDB
      = (searchNomenclatures binary64 acceptAll 0 (textRow ["C1", "100", "5", "own", "X"])
            sampleJob columnsWithBrand sampleDB).mapResult
          (fun r => (r.1, r.2.1.map (fun _ => textRow ["C1", "100", "5", "own", "Y"]), r.2.2))
    ∧ (∀ r m, (searchNomenclatures binary64 acceptAll 0 (textRow ["C1", "100", "5", "own", "X"])
            sampleJob columnsWithBrand sampleDB).result = some r →
        r.2.1 = some m → m = textRow ["C1", "100", "5", "own", "X"])
    ∧ (∀ code brand, Stmt.selectNomenclature code brand
          ∈ (searchNomenclatures binary64 acceptAll 0 (textRow ["C1", "100", "5", "own", "X"])
              sampleJob columnsWithBrand sampleDB).state.statements →
        Stmt.selectNomenclature code brand ∈ sampleDB.statements ∨ brand = sampleJob.Brand) :=
  brand_override_ignores_brand_column binary64 acceptAll 0
    (textRow ["C1", "100", "5", "own", "X"]) (textRow ["C1", "100", "5", "own", "Y"]) sampleJob
    columnsWithBrand 0 sampleDB (by decide) (by decide)

/-! ## The scanning pass -/

theorem bulkLoop_trace {F α : Type} (env : Store F) (mk : List α → Stmt F) (items : List α)
    (bulkCount : Int) (hC : 0 < bulkCount) (hmod : (items.length : Int) % bulkCount ≠ 0) :
    ∀ (n : Nat) (i : Int) (db : DB F), 1 ≤ i →
      i + n = (items.length : Int) / bulkCount + 2 →
      (∃ d ins, bulkLoop env mk items bulkCount n i db = .ok () d
          ∧ d.statements = db.statements ++ ins
          ∧ ∀ s ∈ ins, (∃ b, s = mk b) ∧ env.rejects s = false)
      ∨ (∃ d ins b, bulkLoop env mk items bulkCount n i db = .fatal "Failed: " d
          ∧ d.statements = db.statements ++ ins ++ [mk b]
          ∧ (∀ s ∈ ins, (∃ b, s = mk b) ∧ env.rejects s = false)
          ∧ env.rejects (mk b) = true) := by
  intro n
  induction n with
  | zero =>
    intro i db _ _
    exact Or.inl ⟨db, [], rfl, by simp, by simp⟩
  | succ n ih =>
    intro i db hi hin
    have hdiv := Int.ediv_add_emod (items.length : Int) bulkCount
    have hmod_nonneg := Int.emod_nonneg (items.length : Int) (ne_of_gt hC)
    have hmod_lt := Int.emod_lt_of_pos (items.length : Int) hC
    have hiq : i ≤ (items.length : Int) / bulkCount + 1 := by omega
    have hmul : (i - 1) * bulkCount ≤ ((items.length : Int) / bulkCount) * bulkCount :=
      Int.mul_le_mul_of_nonneg_right (by omega) (le_of_lt hC)
    have hstart : 0 ≤ (i - 1) * bulkCount := Int.mul_nonneg (by omega) (le_of_lt hC)
    have hexp : i * bulkCount = (i - 1) * bulkCount + bulkCount := by ring
    have hcomm : bulkCount * ((items.length : Int) / bulkCount)
        = ((items.length : Int) / bulkCount) * bulkCount := by ring
    have hslice : ∃ bulk, slice items ((i - 1) * bulkCount)
        (if i * bulkCount - 1 > (items.length : Int) - 1 then (items.length : Int) - 1
         else i * bulkCount - 1) = some bulk := by
      unfold slice
      split
      · rw [if_pos (by omega)]
        exact ⟨_, rfl⟩
      · rw [if_pos (by omega)]
        exact ⟨_, rfl⟩
    obtain ⟨bulk, hbulk⟩ := hslice
    simp only [bulkLoop, hbulk]
    have hs := send_statements env (mk bulk) db
    have hf := send_fst env (mk bulk) db
    cases hsend : send env (mk bulk) db with
    | mk ok db1 =>
      rw [hsend] at hs hf
      simp only at hs hf
      cases ok with
      | true =>
        simp only
        have hacc : env.rejects (mk bulk) = false := by simpa using hf.symm
        rcases ih (i + 1) db1 (by omega) (by push_cast at hin ⊢; omega) with
          ⟨d, ins, h1, h2, h3⟩ | ⟨d, ins, b, h1, h2, h3, h4⟩
        · refine Or.inl ⟨d, mk bulk :: ins, h1, by simp [h2, hs], ?_⟩
          intro s hsmem
          rcases List.mem_cons.mp hsmem with rfl | hsmem
          · exact ⟨⟨bulk, rfl⟩, hacc⟩
          · exact h3 s hsmem
        · refine Or.inr ⟨d, mk bulk :: ins, b, h1, by simp [h2, hs], ?_, h4⟩
          intro s hsmem
          rcases List.mem_cons.mp hsmem with rfl | hsmem
          · exact ⟨⟨bulk, rfl⟩, hacc⟩
          · exact h3 s hsmem
      | false =>
        simp only
        have hrej : env.rejects (mk bulk) = true := by simpa using hf.symm
        exact Or.inr ⟨db1, [], bulk, rfl, by simp [hs], by simp, hrej⟩

theorem flush_trace {F α : Type} (env : Store F) (mk : List α → Stmt F) (items : List α)
    (bulkCount : Int) (hC : 0 < bulkCount) (hmod : (items.length : Int) % bulkCount ≠ 0)
    (db : DB F) :
    FlushTrace env mk db
      (match bulkLoop env mk items bulkCount (pageCount items.length bulkCount).toNat 1
          (Exec env (.set "foreign_key_checks" 0)
            (Exec env (.set "unique_checks" 0) (Exec env (.set "autocommit" 0) db))) with
        | .ok _ db =>
          .ok () (Exec env (.set "foreign_key_checks" 1)
            (Exec env (.set "unique_checks" 1) (Exec env (.set "autocommit" 1) db)))
        | .fatal msg db => .fatal msg db
        | .panic db => .panic db) := by
  have hq : 0 ≤ (items.length : Int) / bulkCount :=
    Int.ediv_nonneg (Int.ofNat_nonneg _) (le_of_lt hC)
  have hn : (1 : Int) + ((pageCount items.length bulkCount).toNat : Int)
      = (items.length : Int) / bulkCount + 2 := by
    unfold pageCount
    rw [Int.toNat_of_nonneg (by omega)]
    omega
  rcases bulkLoop_trace env mk items bulkCount hC hmod _ 1
      (Exec env (.set "foreign_key_checks" 0)
        (Exec env (.set "unique_checks" 0) (Exec env (.set "autocommit" 0) db)))
      (le_refl _) hn with ⟨d, ins, h1, h2, h3⟩ | ⟨d, ins, b, h1, h2, h3, h4⟩
  · rw [h1]
    refine Or.inl ⟨_, ins, rfl, ?_, h3⟩
    simp [Exec_statements, h2, relax, restore]
  · rw [h1]
    refine Or.inr ⟨_, ins, b, rfl, ?_, h3, h4⟩
    simp [Exec_statements, h2, relax]

/-- C7, as amended: a flush by `insertNomenclatures` or `insertPrices` of a
non-empty list whose length is not a multiple of the chunk size first issues
the three relaxing statements and then either returns, the statements issued
ending with the three restoring ones, or halts in `failOnError` on a bulk write
that the store rejected, that write being the last statement issued (no
restoring statement follows).  When the store accepts every bulk write the
flush returns. -/
theorem flush_restores_unless_fatal {F : Type} (env : Store F) (db : DB F)
    (nomenclatures : List NomenclatureTuple) (prices : List (PriceTuple F))
    (hn : nomenclatures ≠ []) (hnmod : (nomenclatures.length : Int) % 50000 ≠ 0)
    (hp : prices ≠ []) (hpmod : (prices.length : Int) % 10000 ≠ 0) :
    FlushTrace env Stmt.insertNomenclatures db (insertNomenclatures env nomenclatures db)
    ∧ FlushTrace env Stmt.insertPrices db (insertPrices env prices db)
    ∧ ((∀ b, env.rejects (Stmt.insertNomenclatures b) = false) →
        (insertNomenclatures env nomenclatures db).result = some ())
    ∧ ((∀ b, env.rejects (Stmt.insertPrices b) = false) →
        (insertPrices env prices db).result = some ()) := by
  have h1 : FlushTrace env Stmt.insertNomenclatures db (insertNomenclatures env nomenclatures db) := by
    unfold insertNomenclatures
    have : nomenclatures.isEmpty = false := by
      cases nomenclatures with
      | nil => exact absurd rfl hn
      | cons _ _ => rfl
    simp only [this, Bool.not_false, if_true]
    exact flush_trace env Stmt.insertNomenclatures nomenclatures 50000 (by decide) hnmod db
  have h2 : FlushTrace env Stmt.insertPrices db (insertPrices env prices db) := by
    unfold insertPrices
    have : prices.isEmpty = false := by
      cases prices with
      | nil => exact absurd rfl hp
      | cons _ _ => rfl
    simp only [this, Bool.not_false, if_true]
    exact flush_trace env Stmt.insertPrices prices 10000 (by decide) hpmod db
  refine ⟨h1, h2, ?_, ?_⟩
  · intro hacc
    rcases h1 with ⟨d, ins, h, -, -⟩ | ⟨d, ins, b, -, -, -, h⟩
    · rw [h]; rfl
    · rw [hacc b] at h; exact absurd h (by decide)
  · intro hacc
    rcases h2 with ⟨d, ins, h, -, -⟩ | ⟨d, ins, b, -, -, -, h⟩
    · rw [h]; rfl
    · rw [hacc b] at h; exact absurd h (by decide)

/-- C7, amended, on two pending creates and two price records with a store
that accepts every statement. -/
theorem flush_restores_unless_fatal_witness :
    FlushTrace acceptAll Stmt.insertNomenclatures sampleDB
        (insertNomenclatures acceptAll [pendingNew "A", pendingNew "B"] sampleDB)
    ∧ FlushTrace acceptAll Stmt.insertPrices sampleDB
        (insertPrices acceptAll [priceC1, priceC1six] sampleDB)
    ∧ ((∀ b, acceptAll.rejects (Stmt.insertNomenclatures b) = false) →
        (insertNomenclatures acceptAll [pendingNew "A", pendingNew "B"] sampleDB).result = some ())
    ∧ ((∀ b, acceptAll.rejects (Stmt.insertPrices b) = false) →
        (insertPrices acceptAll [priceC1, priceC1six] sampleDB).result = some ()) :=
  flush_restores_unless_fatal acceptAll sampleDB [pendingNew "A", pendingNew "B"]
    [priceC1, priceC1six] (by decide) (by decide) (by decide) (by decide)

/-- C7 fails as stated: with a store that rejects bulk inserts, the flush of
two pending creates, and the flush of two price records, halt in `failOnError`
after the three relaxing statements and the rejected bulk insert; the
statements issued do not end with the restoring ones. -/
theorem flush_fatal_skips_restore :
    insertNomenclatures rejectBulk [pendingNew "A", pendingNew "B"] sampleDB
      = .fatal "Failed: "
          ⟨sampleDB.nomenclatures, [], [], relax ++ [Stmt.insertNomenclatures [pendingNew "A"]]⟩
    ∧ insertPrices rejectBulk [priceC1, priceC1six] sampleDB
      = .fatal "Failed: " ⟨sampleDB.nomenclatures, [], [], relax ++ [Stmt.insertPrices [priceC1]]⟩
    ∧ ¬ (restore <:+ (insertNomenclatures rejectBulk [pendingNew "A", pendingNew "B"]
          sampleDB).state.statements)
    ∧ ¬ (restore <:+ (insertPrices rejectBulk [priceC1, priceC1six]
          sampleDB).state.statements) := by
  decide

/-! ## Chunked bulk writes and the two passes on concrete inputs -/

/-- C1, at a failing input: two accumulated price records, a store that accepts
every statement.  `insertPrices` returns after one bulk insert that carries the
first record only; the second record is handed to no bulk insert, so one record
is written where two were accumulated. -/
theorem insertPrices_two_records_writes_one :
    insertPrices acceptAll [priceC1, priceC1six] sampleDB
      = .ok () ⟨sampleDB.nomenclatures, [priceC1], [],
                relax ++ [Stmt.insertPrices [priceC1]] ++ restore⟩
    ∧ [priceC1, priceC1six].length = 2 ∧ [priceC1].length = 1 := by
  decide

/-- C2, at a failing input: a sheet of two rows whose products `A` and `B` are
both new.  The scanning pass parks both rows and queues both pending creates;
`insertNomenclatures` returns with no failed bulk write but has written `A`
only; re-resolving (`B`, `ACME`) misses again, and the reconciling pass yields
the price record of `A` alone.  On the sheet with the single new row `A` the
flush writes nothing and the reconciling pass yields no price record. -/
theorem flush_leaves_last_pending_create_unwritten :
    scanTwoNew.result.map (fun acc => (acc.priceRows, acc.missRows, acc.newNomenclatures))
        = some ([], [⟨0, rowA⟩, ⟨1, rowB⟩], [pendingNew "A", pendingNew "B"])
      ∧ flushTwoNew.result = some ()
      ∧ flushTwoNew.state.nomenclatures
          = sampleDB.nomenclatures ++ [⟨8, "A", "", "ACME", ""⟩]
      ∧ (getNomenclature acceptAll "B" "ACME" flushTwoNew.state).1.2 = some SqlError.ErrNoRows
      ∧ (reconcileRows binary64 acceptAll sampleJob sampleColumns [⟨0, rowA⟩, ⟨1, rowB⟩] []
            flushTwoNew.state).result = some [priceA]
      ∧ scanOneNew.result.map (fun acc => (acc.priceRows, acc.missRows, acc.newNomenclatures))
          = some ([], [⟨0, rowA⟩], [pendingNew "A"])
      ∧ flushOneNew.result = some ()
      ∧ flushOneNew.state.nomenclatures = sampleDB.nomenclatures
      ∧ (reconcileRows binary64 acceptAll sampleJob sampleColumns [⟨0, rowA⟩] []
            flushOneNew.state).result = some [] := by
  decide

/-- C4, at a failing input: the sheet of two new products `A` and `B`.  After
the flush (which wrote `A` only) the parked row of `B` misses again in the
reconciling pass: `reedFile` returns, the row of `B` has no price record and no
RowError has been recorded for it; the table of row errors is empty. -/
theorem reconcile_second_miss_is_dropped_silently :
    (searchNomenclatures binary64 acceptAll 1 rowB sampleJob sampleColumns flushTwoNew.state).result
        = some (none, some rowB, some (pendingNew "B"))
    ∧ (reconcileRows binary64 acceptAll sampleJob sampleColumns [⟨0, rowA⟩, ⟨1, rowB⟩] []
          flushTwoNew.state).result = some [priceA]
    ∧ (reconcileRows binary64 acceptAll sampleJob sampleColumns [⟨0, rowA⟩, ⟨1, rowB⟩] []
          flushTwoNew.state).state.price_list_upload_rows = []
    ∧ (reedFile binary64 acceptAll (oneSheet [rowA, rowB]) sampleJob sampleDB).result = some ()
    ∧ (reedFile binary64 acceptAll (oneSheet [rowA, rowB]) sampleJob
        sampleDB).state.price_list_upload_rows = []
    ∧ (reedFile binary64 acceptAll (oneSheet [rowA, rowB]) sampleJob sampleDB).state.prices = [] := by
  decide

/-- C5, at a failing input: a sheet of two rows, the first well formed with an
existing product, the second with a new product and the malformed price
`abc`.  One price record is accumulated (N-1), but no RowError is recorded: the
second row is parked, its pending create is not written by the flush, and its
second miss is dropped.  With a store that rejects the bulk insert of an empty
chunk the run halts in the flush, again with no RowError.  (When the second
row carries the existing product `C1` instead, its malformed price is seen in
the scanning pass and the RowError for row 2 is recorded.) -/
theorem malformed_price_on_new_product_records_no_error :
    scanBadPrice.result.map (fun acc => (acc.priceRows, acc.missRows, acc.newNomenclatures))
        = some ([priceC1], [⟨1, rowBadPrice⟩], [pendingNew "N"])
    ∧ scanBadPrice.state.price_list_upload_rows = []
    ∧ flushBadPrice.result = some ()
    ∧ (reconcileRows binary64 acceptAll sampleJob sampleColumns [⟨1, rowBadPrice⟩] [priceC1]
          flushBadPrice.state).result = some [priceC1]
    ∧ (reconcileRows binary64 acceptAll sampleJob sampleColumns [⟨1, rowBadPrice⟩] [priceC1]
          flushBadPrice.state).state.price_list_upload_rows = []
    ∧ (reedFile binary64 acceptAll (oneSheet [rowC1, rowBadPrice]) sampleJob sampleDB).result
        = some ()
    ∧ (reedFile binary64 acceptAll (oneSheet [rowC1, rowBadPrice]) sampleJob
        sampleDB).state.price_list_upload_rows = []
    ∧ (reedFile binary64 rejectEmptyBulk (oneSheet [rowC1, rowBadPrice]) sampleJob sampleDB).result
        = none
    ∧ (reedFile binary64 rejectEmptyBulk (oneSheet [rowC1, rowBadPrice]) sampleJob
        sampleDB).state.price_list_upload_rows = []
    ∧ (scanRows binary64 acceptAll sampleJob sampleColumns [some rowC1, some rowC1BadPrice] 0
        emptyAcc sampleDB).result.map
          (fun acc => (acc.priceRows, acc.missRows, acc.newNomenclatures))
        = some ([priceC1], [], [])
    ∧ (scanRows binary64 acceptAll sampleJob sampleColumns [some rowC1, some rowC1BadPrice] 0
        emptyAcc sampleDB).state.price_list_upload_rows = [⟨1, 2, "Не определена цена"⟩] := by
  repeat' apply And.intro
  all_goals decide

/-! ## Intake -/

/-- C8, as amended: when the extension of the file name is not `.xlsx`,
`reedFile` opens no file, reads no row and issues no statement (it ends in the
state it started from, whatever the file system holds).  It halts with a fatal
error when the column mapping does not parse or the extension is none of
`.xls`, `.csv`, `.txt`; for these three extensions it returns with no error. -/
theorem reedFile_other_extension {F : Type} (fl : FloatOps F) (env : Store F)
    (fs : String → Option XlsxFile) (fileConfig : Upload F) (db : DB F)
    (hext : Ext fileConfig.FileName ≠ ".xlsx") :
    reedFile fl env fs fileConfig db
      = (if fileConfig.ColumnsConfig.isNone then .fatal "Failed column config: " db
         else if Ext fileConfig.FileName = ".xls" ∨ Ext fileConfig.FileName = ".csv"
                  ∨ Ext fileConfig.FileName = ".txt" then .ok () db
         else .fatal "Unknown format: " db) := by
  unfold reedFile
  cases hcfg : fileConfig.ColumnsConfig with
  | none => simp
  | some columnsConfig =>
    simp only [Option.isNone_some, Bool.false_eq_true, if_false, if_neg hext]
    by_cases h1 : Ext fileConfig.FileName = ".xls"
    · simp [h1]
    · by_cases h2 : Ext fileConfig.FileName = ".csv"
      · simp [h2]
      · by_cases h3 : Ext fileConfig.FileName = ".txt"
        · simp [h3]
        · simp [h1, h2, h3]

/-- C8, amended, on `prices.docx`: a fatal error and no statement. -/
theorem reedFile_other_extension_witness :
    reedFile binary64 acceptAll (oneSheet [rowC1])
        (jobNamed "prices.docx") sampleDB
      = .fatal "Unknown format: " sampleDB :=
  reedFile_other_extension binary64 acceptAll (oneSheet [rowC1])
    (jobNamed "prices.docx") sampleDB (by decide)

/-- C8 fails as stated: for `prices.csv` (also `.xls`, `.txt`) `reedFile`
returns normally, with no fatal error. -/
theorem reedFile_csv_returns_without_error :
    reedFile binary64 acceptAll (oneSheet [rowC1])
        (jobNamed "prices.csv") sampleDB = .ok () sampleDB
    ∧ reedFile binary64 acceptAll (oneSheet [rowC1])
        (jobNamed "prices.xls") sampleDB = .ok () sampleDB
    ∧ reedFile binary64 acceptAll (oneSheet [rowC1])
        (jobNamed "prices.txt") sampleDB = .ok () sampleDB
    ∧ Ext "prices.csv" ≠ ".xlsx" := by
  decide


/-! ## The start row -/

theorem Quiet.refl {F : Type} (db : DB F) : Quiet db db :=
  ⟨rfl, rfl, rfl, rfl⟩

theorem Quiet.getNomenclature {F : Type} (env : Store F) (code brand : String) (db : DB F) :
    Quiet db (getNomenclature env code brand db).2 := by
  rw [getNomenclature_state]
  exact ⟨rfl, rfl, rfl, by simp [errorsIssued]⟩

theorem Exec_set_tables {F : Type} (env : Store F) (name : String) (value : Int) (db : DB F) :
    (Exec env (.set name value) db).nomenclatures = db.nomenclatures
    ∧ (Exec env (.set name value) db).prices = db.prices
    ∧ (Exec env (.set name value) db).price_list_upload_rows = db.price_list_upload_rows := by
  unfold Exec send
  split <;> exact ⟨rfl, rfl, rfl⟩

theorem addErr_rows {F : Type} (env : Store F) (uploadId row : Int) (textError : String)
    (db : DB F) :
    (addErr env uploadId row textError db).price_list_upload_rows
      = db.price_list_upload_rows
          ++ [(⟨uploadId, row, textError⟩ : RowError)].filter
              (fun e => !env.rejects (Stmt.insertUploadRow e)) := by
  unfold addErr
  simp only [(Exec_set_tables env _ _ _).2.2]
  unfold send
  by_cases h : env.rejects (Stmt.insertUploadRow ⟨uploadId, row, textError⟩) = true
  · simp [h, (Exec_set_tables env _ _ _).2.2]
  · simp [h, DB.apply, (Exec_set_tables env _ _ _).2.2]

theorem addErr_errorsIssued {F : Type} (env : Store F) (uploadId row : Int) (textError : String)
    (db : DB F) :
    errorsIssued (addErr env uploadId row textError db).statements
      = errorsIssued db.statements ++ [⟨uploadId, row, textError⟩] := by
  rw [addErr_statements]
  simp [errorsIssued, relax, restore, List.filterMap_append]

/-- The ways in which `searchNomenclatures` ends, with the state reached: a
panic, on a mapped position whose cell index is out of range; an error row
(all three results empty, one call of `addErr`); a parked row with its pending
create; a price tuple alone.  Before `addErr`, and in the last two cases, only
catalog queries have been issued. -/
theorem searchNomenclatures_outcomes {F : Type} (fl : FloatOps F) (env : Store F) (idx : Int)
    (row : Row) (fileConfig : Upload F) (columnsConfig : ColumnsConfig) (db : DB F) :
    (∃ d, searchNomenclatures fl env idx row fileConfig columnsConfig db = .panic d)
    ∨ (∃ msg d, searchNomenclatures fl env idx row fileConfig columnsConfig db
          = .ok (none, none, none) (addErr env fileConfig.ID (idx + 1) msg d) ∧ Quiet db d)
    ∨ (∃ d, searchNomenclatures fl env idx row fileConfig columnsConfig db
          = .ok (none, some row, some (pendingOf fileConfig columnsConfig row)) d ∧ Quiet db d)
    ∨ (∃ p d, searchNomenclatures fl env idx row fileConfig columnsConfig db
          = .ok (some p, none, none) d ∧ Quiet db d) := by
  unfold searchNomenclatures
  simp only []
  split
  · exact Or.inl ⟨_, rfl⟩
  · exact Or.inr (Or.inl ⟨_, _, rfl, Quiet.refl db⟩)
  rename_i brand hbrand
  split
  · exact Or.inl ⟨_, rfl⟩
  · exact Or.inr (Or.inl ⟨_, _, rfl, Quiet.refl db⟩)
  rename_i code hcode
  split
  · exact Or.inr (Or.inl ⟨_, _, rfl, Quiet.refl db⟩)
  have hq := Quiet.getNomenclature env code brand db
  split
  · exact Or.inl ⟨_, rfl⟩
  · exact Or.inr (Or.inl ⟨_, _, rfl, hq⟩)
  rename_i replaceCode hreplace
  split
  · exact Or.inl ⟨_, rfl⟩
  · exact Or.inr (Or.inl ⟨_, _, rfl, hq⟩)
  rename_i description hdescription
  split
  · refine Or.inr (Or.inr (Or.inl ⟨(getNomenclature env code brand db).2, ?_, hq⟩))
    rw [pendingOf_of_reads fileConfig columnsConfig row brand code replaceCode description
      _ hbrand hcode hreplace hdescription]
  split
  · exact Or.inl ⟨_, rfl⟩
  · exact Or.inr (Or.inl ⟨_, _, rfl, hq⟩)
  split
  · exact Or.inr (Or.inl ⟨_, _, rfl, hq⟩)
  split
  · exact Or.inl ⟨_, rfl⟩
  · exact Or.inr (Or.inl ⟨_, _, rfl, hq⟩)
  split
  · exact Or.inr (Or.inl ⟨_, _, rfl, hq⟩)
  split
  · exact Or.inl ⟨_, rfl⟩
  · exact Or.inr (Or.inl ⟨_, _, rfl, hq⟩)
  split
  · exact Or.inr (Or.inl ⟨_, _, rfl, hq⟩)
  split
  · exact Or.inl ⟨_, rfl⟩
  · exact Or.inr (Or.inl ⟨_, _, rfl, hq⟩)
  exact Or.inr (Or.inr (Or.inr ⟨_, _, rfl, hq⟩))

/-- A call of `searchNomenclatures` panics only on a cell index out of range:
when the cell of every position it can consult exists (the brand position
without a brand override, the code, price, quantity and owner-id positions, the
replacement-code, description and comment positions where mapped), it does not
panic. -/
theorem searchNomenclatures_in_range_no_panic {F : Type} (fl : FloatOps F) (env : Store F)
    (idx : Int) (row : Row) (fileConfig : Upload F) (columnsConfig : ColumnsConfig) (db : DB F)
    (hB : fileConfig.Brand = "" → readCell row.Cells (columnsConfig.Brand - 1) ≠ CellRead.panic)
    (hC : readCell row.Cells (columnsConfig.Code - 1) ≠ CellRead.panic)
    (hR : columnsConfig.ReplaceCode > 0 →
      readCell row.Cells (columnsConfig.ReplaceCode - 1) ≠ CellRead.panic)
    (hD : columnsConfig.Description > 0 →
      readCell row.Cells (columnsConfig.Description - 1) ≠ CellRead.panic)
    (hP : readCell row.Cells (columnsConfig.Price - 1) ≠ CellRead.panic)
    (hA : readCell row.Cells (columnsConfig.Amount - 1) ≠ CellRead.panic)
    (hO : readCell row.Cells (columnsConfig.OwnerId - 1) ≠ CellRead.panic)
    (hM : columnsConfig.Comment > 0 →
      readCell row.Cells (columnsConfig.Comment - 1) ≠ CellRead.panic) :
    (searchNomenclatures fl env idx row fileConfig columnsConfig db).panicked = false := by
  unfold searchNomenclatures
  simp only []
  repeat' split
  all_goals first
    | rfl
    | (exfalso
       simp_all [Outcome.panicked]
       done)
    | (exfalso
       rename_i h
       split at h <;> simp_all)

/-- C11: a call of `searchNomenclatures` that meets no cell index out of range
(it does not panic) ends in exactly one of three ways: a price record alone; a
parked row with its pending create and no price record; all three results
empty with exactly one RowError, for row `idx + 1`, handed to `addErr`.  In the
first two cases no RowError is handed to the store; in every case the table of
row errors grows by the errors handed over that the store accepts. -/
theorem searchNomenclatures_three_outcomes {F : Type} (fl : FloatOps F) (env : Store F)
    (idx : Int) (row : Row) (fileConfig : Upload F) (columnsConfig : ColumnsConfig) (db : DB F)
    (hrange : (searchNomenclatures fl env idx row fileConfig columnsConfig db).panicked = false) :
    ∃ errs : List RowError,
      errorsIssued (searchNomenclatures fl env idx row fileConfig columnsConfig db).state.statements
        = errorsIssued db.statements ++ errs
      ∧ (searchNomenclatures fl env idx row fileConfig columnsConfig db).state.price_list_upload_rows
        = db.price_list_upload_rows
            ++ errs.filter (fun e => !env.rejects (Stmt.insertUploadRow e))
      ∧ ((∃ p, (searchNomenclatures fl env idx row fileConfig columnsConfig db).result
              = some (some p, none, none) ∧ errs = [])
         ∨ ((searchNomenclatures fl env idx row fileConfig columnsConfig db).result
              = some (none, some row, some (pendingOf fileConfig columnsConfig row)) ∧ errs = [])
         ∨ (∃ msg, (searchNomenclatures fl env idx row fileConfig columnsConfig db).result
              = some (none, none, none) ∧ errs = [⟨fileConfig.ID, idx + 1, msg⟩])) := by
  rcases searchNomenclatures_outcomes fl env idx row fileConfig columnsConfig db with
    ⟨d, h⟩ | ⟨msg, d, h, hq⟩ | ⟨d, h, hq⟩ | ⟨p, d, h, hq⟩
  · rw [h] at hrange
    simp [Outcome.panicked] at hrange
  · refine ⟨[⟨fileConfig.ID, idx + 1, msg⟩], ?_, ?_, Or.inr (Or.inr ⟨msg, ?_, rfl⟩)⟩
    · rw [h]
      simp only [Outcome.state]
      rw [addErr_errorsIssued, hq.2.2.2]
    · rw [h]
      simp only [Outcome.state]
      rw [addErr_rows, hq.2.2.1]
    · rw [h]; rfl
  · refine ⟨[], ?_, ?_, Or.inr (Or.inl ⟨?_, rfl⟩)⟩
    · rw [h]; simp [Outcome.state, hq.2.2.2]
    · rw [h]; simp [Outcome.state, hq.2.2.1]
    · rw [h]; rfl
  · refine ⟨[], ?_, ?_, Or.inl ⟨p, ?_, rfl⟩⟩
    · rw [h]; simp [Outcome.state, hq.2.2.2]
    · rw [h]; simp [Outcome.state, hq.2.2.1]
    · rw [h]; rfl


/-- C11 on the well-formed row of the existing product `C1`: the call does not
panic and ends with a price record alone and no RowError. -/
theorem searchNomenclatures_three_outcomes_witness :
    ∃ errs : List RowError,
      errorsIssued (searchNomenclatures binary64 acceptAll 0 rowC1 sampleJob sampleColumns
          sampleDB).state.statements = errorsIssued sampleDB.statements ++ errs
      ∧ (searchNomenclatures binary64 acceptAll 0 rowC1 sampleJob sampleColumns
          sampleDB).state.price_list_upload_rows
        = sampleDB.price_list_upload_rows
            ++ errs.filter (fun e => !acceptAll.rejects (Stmt.insertUploadRow e))
      ∧ ((∃ p, (searchNomenclatures binary64 acceptAll 0 rowC1 sampleJob sampleColumns
              sampleDB).result = some (some p, none, none) ∧ errs = [])
         ∨ ((searchNomenclatures binary64 acceptAll 0 rowC1 sampleJob sampleColumns
              sampleDB).result
              = some (none, some rowC1, some (pendingOf sampleJob sampleColumns rowC1))
            ∧ errs = [])
         ∨ (∃ msg, (searchNomenclatures binary64 acceptAll 0 rowC1 sampleJob sampleColumns
              sampleDB).result = some (none, none, none) ∧ errs = [⟨sampleJob.ID, 0 + 1, msg⟩])) :=
  searchNomenclatures_three_outcomes binary64 acceptAll 0 rowC1 sampleJob sampleColumns sampleDB
    (by decide)

/-! ## Chunk bounds -/

theorem bulkLoop_full_chunk_panics {F α : Type} (env : Store F) (mk : List α → Stmt F)
    (items : List α) (bulkCount : Int) (hC : 1 ≤ bulkCount)
    (hlen : (items.length : Int) = bulkCount)
    (hacc : ∀ b, env.rejects (mk b) = false) (db : DB F) :
    bulkLoop env mk items bulkCount 2 1 db
      = .panic (send env (mk (items.take (bulkCount - 1).toNat)) db).2 := by
  have e1 : (if 1 * bulkCount - 1 > (items.length : Int) - 1 then (items.length : Int) - 1
       else 1 * bulkCount - 1) = bulkCount - 1 := by
    split <;> omega
  have e2 : (if (1 + 1) * bulkCount - 1 > (items.length : Int) - 1 then (items.length : Int) - 1
       else (1 + 1) * bulkCount - 1) = bulkCount - 1 := by
    split <;> omega
  have z1 : ((1 : Int) - 1) * bulkCount = 0 := by omega
  have z2 : ((1 : Int) + 1 - 1) * bulkCount = bulkCount := by omega
  have hs1 : slice items 0 (bulkCount - 1) = some (items.take (bulkCount - 1).toNat) := by
    unfold slice
    rw [if_pos (by omega)]
    simp
  have hs2 : slice items bulkCount (bulkCount - 1) = none := by
    unfold slice
    rw [if_neg (by omega)]
  have hsend : send env (mk (items.take (bulkCount - 1).toNat)) db
      = (true, (send env (mk (items.take (bulkCount - 1).toNat)) db).2) := by
    have h := send_fst env (mk (items.take (bulkCount - 1).toNat)) db
    rw [hacc] at h
    exact Prod.ext (by simpa using h) rfl
  rw [bulkLoop]
  simp only [e1, z1, hs1]
  rw [hsend]
  simp only []
  rw [bulkLoop]
  simp only [e2, z2, hs2]

theorem insertPrices_full_chunk_panics {F : Type} (env : Store F) (prices : List (PriceTuple F))
    (db : DB F) (hlen : prices.length = 10000)
    (hacc : ∀ b, env.rejects (Stmt.insertPrices b) = false) :
    (insertPrices env prices db).panicked = true
    ∧ (insertPrices env prices db).state.statements
        = db.statements ++ relax ++ [Stmt.insertPrices (prices.take 9999)] := by
  have hne : prices.isEmpty = false := by
    cases prices with
    | nil => simp at hlen
    | cons _ _ => rfl
  have hpages : (pageCount (prices.length : Int) 10000).toNat = 2 := by
    rw [hlen]; decide
  unfold insertPrices
  simp only [hne, Bool.not_false, if_true, hpages]
  rw [bulkLoop_full_chunk_panics env Stmt.insertPrices prices 10000 (by decide)
    (by rw [hlen]; rfl) hacc]
  refine ⟨rfl, ?_⟩
  simp [Outcome.state, send_statements, Exec_statements, relax]

theorem insertNomenclatures_full_chunk_panics {F : Type} (env : Store F)
    (nomenclatures : List NomenclatureTuple) (db : DB F) (hlen : nomenclatures.length = 50000)
    (hacc : ∀ b, env.rejects (Stmt.insertNomenclatures b) = false) :
    (insertNomenclatures env nomenclatures db).panicked = true
    ∧ (insertNomenclatures env nomenclatures db).state.statements
        = db.statements ++ relax ++ [Stmt.insertNomenclatures (nomenclatures.take 49999)] := by
  have hne : nomenclatures.isEmpty = false := by
    cases nomenclatures with
    | nil => simp at hlen
    | cons _ _ => rfl
  have hpages : (pageCount (nomenclatures.length : Int) 50000).toNat = 2 := by
    rw [hlen]; decide
  unfold insertNomenclatures
  simp only [hne, Bool.not_false, if_true, hpages]
  rw [bulkLoop_full_chunk_panics env Stmt.insertNomenclatures nomenclatures 50000 (by decide)
    (by rw [hlen]; rfl) hacc]
  refine ⟨rfl, ?_⟩
  simp [Outcome.state, send_statements, Exec_statements, relax]

/-- C13, at a failing input: a list whose length is exactly the chunk size
(10000 price records for `insertPrices`, 50000 pending creates for
`insertNomenclatures`).  The page count is 2; on page 2 the bounds are
`start = L` and `end = L - 1`, so `start > end`, the slice expression panics
and the flush ends there, after one bulk insert of the first `L - 1` records
and with no restoring statement. -/
theorem flush_of_full_chunk_panics :
    pageCount 10000 10000 = 2 ∧ pageCount 50000 50000 = 2
    ∧ slice (List.replicate 10000 priceC1) ((2 - 1) * 10000)
        (if 2 * 10000 - 1 > (10000 : Int) - 1 then (10000 : Int) - 1 else 2 * 10000 - 1) = none
    ∧ slice (List.replicate 50000 (pendingNew "A")) ((2 - 1) * 50000)
        (if 2 * 50000 - 1 > (50000 : Int) - 1 then (50000 : Int) - 1 else 2 * 50000 - 1) = none
    ∧ (insertPrices acceptAll (List.replicate 10000 priceC1) sampleDB).panicked = true
    ∧ (insertPrices acceptAll (List.replicate 10000 priceC1) sampleDB).state.statements
        = relax ++ [Stmt.insertPrices (List.replicate 9999 priceC1)]
    ∧ (insertNomenclatures acceptAll (List.replicate 50000 (pendingNew "A"))
        sampleDB).panicked = true
    ∧ (insertNomenclatures acceptAll (List.replicate 50000 (pendingNew "A"))
        sampleDB).state.statements
        = relax ++ [Stmt.insertNomenclatures (List.replicate 49999 (pendingNew "A"))] := by
  have hp := insertPrices_full_chunk_panics acceptAll (List.replicate 10000 priceC1) sampleDB
    (List.length_replicate _ _) (fun _ => rfl)
  have hn := insertNomenclatures_full_chunk_panics acceptAll
    (List.replicate 50000 (pendingNew "A")) sampleDB (List.length_replicate _ _) (fun _ => rfl)
  have m1 : min 9999 10000 = 9999 := by decide
  have m2 : min 49999 50000 = 49999 := by decide
  refine ⟨by decide, by decide, ?_, ?_, hp.1, ?_, hn.1, ?_⟩
  · unfold slice
    rw [List.length_replicate]
    decide
  · unfold slice
    rw [List.length_replicate]
    decide
  · rw [hp.2, List.take_replicate, m1]
    rfl
  · rw [hn.2, List.take_replicate, m2]
    rfl


/-! ## The catalog query -/

theorem getNomenclature_error_iff {F : Type} (env : Store F) (code brand : String) (db : DB F) :
    ((getNomenclature env code brand db).1.2 ≠ none
        ↔ (queryNomenclature env code brand db).1.2 = some SqlError.ErrNoRows)
    ∧ ((queryNomenclature env code brand db).1.2 = some SqlError.ErrNoRows
        ↔ (env.queryFails code brand = false
            ∧ db.nomenclatures.find? (fun n => n.Code == code && n.Brand == brand) = none))
    ∧ (getNomenclature env code brand db).1.1 = (queryNomenclature env code brand db).1.1 := by
  unfold getNomenclature queryNomenclature
  simp only []
  by_cases hq : env.queryFails code brand = true
  · simp [hq]
  · cases hf : db.nomenclatures.find? (fun n => n.Code == code && n.Brand == brand) with
    | none => simp [hq]
    | some n => simp [hq]

/-- C14, as amended: `getNomenclature` returns a non-nil error exactly when
the catalog query returns the no-rows error, that is when the query does not
fail and no row has this code and brand; in every other case it returns a nil
error and the value as far as `Scan` assigned it.  When the query fails with
another error that value is the zero-valued entry if no row was read or no
column assigned, and the leading columns of the row if `Scan` failed part-way;
for a row whose other cells read and parse `searchNomenclatures` builds a
price record from it, parks nothing, queues no pending create and records no
RowError. -/
theorem getNomenclature_miss_only_on_no_rows {F : Type} (fl : FloatOps F) (env : Store F)
    (idx : Int) (row : Row) (fileConfig : Upload F) (columnsConfig : ColumnsConfig) (db : DB F)
    (brand code replaceCode description priceText amountText ownerId comment : String)
    (priceDefault : F) (amount : Int)
    (hbrand : (if fileConfig.Brand ≠ "" then CellRead.val fileConfig.Brand
               else readCell row.Cells (columnsConfig.Brand - 1)) = CellRead.val brand)
    (hcode : readCell row.Cells (columnsConfig.Code - 1) = CellRead.val code)
    (hcode_ne : code ≠ "") (hbrand_ne : brand ≠ "")
    (hquery : env.queryFails code brand = true)
    (hreplace : (if columnsConfig.ReplaceCode > 0 then readCell row.Cells (columnsConfig.ReplaceCode - 1)
                 else CellRead.val "") = CellRead.val replaceCode)
    (hdescription : (if columnsConfig.Description > 0
                     then readCell row.Cells (columnsConfig.Description - 1)
                     else CellRead.val "") = CellRead.val description)
    (hprice : readCell row.Cells (columnsConfig.Price - 1) = CellRead.val priceText)
    (hpriceParse : fl.ParseFloat priceText = some priceDefault)
    (hamount : readCell row.Cells (columnsConfig.Amount - 1) = CellRead.val amountText)
    (hamountParse : ParseInt amountText = some amount)
    (howner : readCell row.Cells (columnsConfig.OwnerId - 1) = CellRead.val ownerId)
    (howner_ne : ownerId ≠ "")
    (hcomment : (if columnsConfig.Comment > 0 then readCell row.Cells (columnsConfig.Comment - 1)
                 else CellRead.val "") = CellRead.val comment) :
    (∀ (c b : String) (d : DB F),
      ((getNomenclature env c b d).1.2 ≠ none
          ↔ (queryNomenclature env c b d).1.2 = some SqlError.ErrNoRows)
      ∧ ((queryNomenclature env c b d).1.2 = some SqlError.ErrNoRows
          ↔ (env.queryFails c b = false
              ∧ d.nomenclatures.find? (fun n => n.Code == c && n.Brand == b) = none))
      ∧ (getNomenclature env c b d).1.1 = (queryNomenclature env c b d).1.1)
    ∧ (queryNomenclature env code brand db).1
        = (scannedOnError env code brand db, some SqlError.other)
    ∧ (getNomenclature env code brand db).1 = (scannedOnError env code brand db, none)
    ∧ searchNomenclatures fl env idx row fileConfig columnsConfig db
      = .ok (some { nomenclature_id := (scannedOnError env code brand db).ID,
                    price_list_id := fileConfig.PriceListId,
                    upload_id := fileConfig.ID, owner_id := ownerId,
                    code := (scannedOnError env code brand db).Code,
                    replace_code := (scannedOnError env code brand db).ReplaceCode,
                    description := (scannedOnError env code brand db).Description,
                    price := fl.mul (fl.mul priceDefault fileConfig.CurrencyValue) fileConfig.Markup,
                    price_default := priceDefault, amount := amount, comment := comment,
                    created_by := fileConfig.CreatedBy }, none, none)
          { db with statements := db.statements ++ [Stmt.selectNomenclature code brand] }
    ∧ ((env.scannedColumns code brand = 0
          ∨ db.nomenclatures.find? (fun n => n.Code == code && n.Brand == brand) = none) →
        scannedOnError env code brand db = Nomenclature.zero)
    ∧ (∀ n, db.nomenclatures.find? (fun n => n.Code == code && n.Brand == brand) = some n →
        scannedOnError env code brand db = partialScan (env.scannedColumns code brand) n) := by
  refine ⟨fun c b d => getNomenclature_error_iff env c b d, ?_, ?_, ?_, ?_, ?_⟩
  · simp [queryNomenclature, hquery]
  · simp [getNomenclature, queryNomenclature, hquery]
  · unfold searchNomenclatures
    simp only [hbrand, hcode, hreplace, hdescription, hprice, hpriceParse, hamount, hamountParse,
      howner, hcomment, getNomenclature, queryNomenclature, hquery]
    simp [hcode_ne, hbrand_ne, howner_ne]
  · intro h
    unfold scannedOnError
    rcases h with h | h
    · cases hf : db.nomenclatures.find? (fun n => n.Code == code && n.Brand == brand) with
      | none => rfl
      | some n => simp [partialScan, h, Nomenclature.zero]
    · rw [h]
  · intro n hn
    unfold scannedOnError
    rw [hn]

/-- C14, amended, on a store whose catalog query fails before any row is read:
the row of the new product `A` is priced against the zero-valued entry. -/
theorem getNomenclature_miss_only_on_no_rows_witness :
    ((∀ (c b : String) (d : DB Float64),
      ((getNomenclature failingQueries c b d).1.2 ≠ none
          ↔ (queryNomenclature failingQueries c b d).1.2 = some SqlError.ErrNoRows)
      ∧ ((queryNomenclature failingQueries c b d).1.2 = some SqlError.ErrNoRows
          ↔ (failingQueries.queryFails c b = false
              ∧ d.nomenclatures.find? (fun n => n.Code == c && n.Brand == b) = none))
      ∧ (getNomenclature failingQueries c b d).1.1 = (queryNomenclature failingQueries c b d).1.1)
    ∧ (queryNomenclature failingQueries "A" "ACME" sampleDB).1
        = (scannedOnError failingQueries "A" "ACME" sampleDB, some SqlError.other)
    ∧ (getNomenclature failingQueries "A" "ACME" sampleDB).1
        = (scannedOnError failingQueries "A" "ACME" sampleDB, none)
    ∧ searchNomenclatures binary64 failingQueries 0 rowA sampleJob sampleColumns sampleDB
      = .ok (some priceZeroEntry, none, none)
          ⟨sampleDB.nomenclatures, [], [], [Stmt.selectNomenclature "A" "ACME"]⟩
    ∧ ((failingQueries.scannedColumns "A" "ACME" = 0
          ∨ sampleDB.nomenclatures.find? (fun n => n.Code == "A" && n.Brand == "ACME") = none) →
        scannedOnError failingQueries "A" "ACME" sampleDB = Nomenclature.zero)
    ∧ (∀ n, sampleDB.nomenclatures.find? (fun n => n.Code == "A" && n.Brand == "ACME") = some n →
        scannedOnError failingQueries "A" "ACME" sampleDB
          = partialScan (failingQueries.scannedColumns "A" "ACME") n))
    ∧ scannedOnError failingQueries "A" "ACME" sampleDB = Nomenclature.zero :=
  ⟨getNomenclature_miss_only_on_no_rows binary64 failingQueries 0 rowA sampleJob sampleColumns
    sampleDB "ACME" "A" "" "" "100" "5" "own" "" f100 5
    (by decide) (by decide) (by decide) (by decide) (by decide) (by decide) (by decide) (by decide)
    (by decide) (by decide) (by decide) (by decide) (by decide) (by decide), by decide⟩

/-- C14 fails as stated: when the `Scan` of the catalog row of (`C1`, `ACME`)
fails on its third column, `getNomenclature` returns a nil error with the
identifier 7 and the code `C1` already assigned, and `searchNomenclatures`
builds the price record from that entry, which is not the zero-valued one. -/
theorem getNomenclature_keeps_scanned_columns :
    (queryNomenclature failingScan "C1" "ACME" sampleDB).1
        = (⟨7, "C1", "", "", ""⟩, some SqlError.other)
    ∧ (getNomenclature failingScan "C1" "ACME" sampleDB).1 = (⟨7, "C1", "", "", ""⟩, none)
    ∧ (getNomenclature failingScan "C1" "ACME" sampleDB).1.1 ≠ Nomenclature.zero
    ∧ searchNomenclatures binary64 failingScan 0 rowC1 sampleJob sampleColumns sampleDB
      = .ok (some pricePartEntry, none, none)
          ⟨sampleDB.nomenclatures, [], [], [Stmt.selectNomenclature "C1" "ACME"]⟩
    ∧ pricePartEntry.nomenclature_id = 7 ∧ pricePartEntry.code = "C1" := by
  repeat' apply And.intro
  all_goals decide

/-! ## The early return on a miss -/

/-- A row whose brand and code read and are not empty, whose mapped
replacement-code and description cells read, and whose lookup misses is parked
with its pending create, and no RowError is recorded, whatever its other cells
hold. -/
theorem searchNomenclatures_miss_parks {F : Type} (fl : FloatOps F) (env : Store F) (idx : Int)
    (row : Row) (fileConfig : Upload F) (columnsConfig : ColumnsConfig) (db : DB F)
    (brand code replaceCode description : String)
    (hbrand : (if fileConfig.Brand ≠ "" then CellRead.val fileConfig.Brand
               else readCell row.Cells (columnsConfig.Brand - 1)) = CellRead.val brand)
    (hcode : readCell row.Cells (columnsConfig.Code - 1) = CellRead.val code)
    (hcode_ne : code ≠ "") (hbrand_ne : brand ≠ "")
    (hquery : env.queryFails code brand = false)
    (hmiss : db.nomenclatures.find? (fun n => n.Code == code && n.Brand == brand) = none)
    (hreplace : (if columnsConfig.ReplaceCode > 0 then readCell row.Cells (columnsConfig.ReplaceCode - 1)
                 else CellRead.val "") = CellRead.val replaceCode)
    (hdescription : (if columnsConfig.Description > 0
                     then readCell row.Cells (columnsConfig.Description - 1)
                     else CellRead.val "") = CellRead.val description) :
    searchNomenclatures fl env idx row fileConfig columnsConfig db
      = .ok (none, some row,
              some { code := code, replace_code := replaceCode, brand := brand,
                     description := description, is_auto_added := 1,
                     created_by := fileConfig.CreatedBy, updated_by := fileConfig.CreatedBy })
          { db with statements := db.statements ++ [Stmt.selectNomenclature code brand] } := by
  unfold searchNomenclatures
  simp only [hbrand, hcode, hreplace, hdescription, getNomenclature, queryNomenclature, hquery,
    hmiss]
  simp [hcode_ne, hbrand_ne, addNomenclature, Nomenclature.zero]

/-- C15, at a failing input: a sheet whose rows carry the new products `A` and
`B`, the row of `B` with the malformed quantity `x`.  In the scanning pass both
rows are parked with their pending creates and no RowError is recorded.  With
`B` last, the flush writes `A` only, the row of `B` misses again in the
reconciling pass and its malformed quantity is reported nowhere: the run
returns with an empty table of row errors.  With `B` first, its entry is
written and the malformed quantity is reported in the reconciling pass, for
row 1. -/
theorem malformed_quantity_after_miss_is_never_reported :
    scanBadAmountLast.result.map (fun acc => (acc.priceRows, acc.missRows, acc.newNomenclatures))
        = some ([], [⟨0, rowA⟩, ⟨1, rowBBadAmount⟩], [pendingNew "A", pendingNew "B"])
    ∧ scanBadAmountLast.state.price_list_upload_rows = []
    ∧ flushBadAmountLast.result = some ()
    ∧ (reconcileRows binary64 acceptAll sampleJob sampleColumns [⟨0, rowA⟩, ⟨1, rowBBadAmount⟩]
          [] flushBadAmountLast.state).result = some [priceA]
    ∧ (reconcileRows binary64 acceptAll sampleJob sampleColumns [⟨0, rowA⟩, ⟨1, rowBBadAmount⟩]
          [] flushBadAmountLast.state).state.price_list_upload_rows = []
    ∧ (reedFile binary64 acceptAll (oneSheet [rowA, rowBBadAmount]) sampleJob sampleDB).result
        = some ()
    ∧ (reedFile binary64 acceptAll (oneSheet [rowA, rowBBadAmount]) sampleJob
        sampleDB).state.price_list_upload_rows = []
    ∧ scanBadAmountFirst.result.map
          (fun acc => (acc.priceRows, acc.missRows, acc.newNomenclatures))
        = some ([], [⟨0, rowBBadAmount⟩, ⟨1, rowA⟩], [pendingNew "B", pendingNew "A"])
    ∧ scanBadAmountFirst.state.price_list_upload_rows = []
    ∧ (reconcileRows binary64 acceptAll sampleJob sampleColumns [⟨0, rowBBadAmount⟩, ⟨1, rowA⟩]
          [] flushBadAmountFirst.state).state.price_list_upload_rows
        = [⟨1, 1, "Не определено количество"⟩] := by
  repeat' apply And.intro
  all_goals decide

end PriceLists
